import Mathlib

/-!
# CurveAdm: shell steps, the playground task and the check command

A shallow embedding of

* `internal/task/step/shell.go` (the shell step catalog),
* `internal/task/task/playground/run.go` (the "Run Playground" task),
* `cli/command/check.go` (`runCheck`).

Go strings are modelled by Lean strings; the markers the steps look for are
ASCII, so matching on characters and matching on bytes agree on them.
The execution module is a state-passing function: it receives the module
state, the built command and the execution options and returns the captured
output, the error (`none` for Go `nil`) and the next module state. Every
`Execute` returns, next to the Go return value, the list of commands it
dispatched, in dispatch order.
-/

namespace CurveAdm

/-! ## Go `strings` functions used by the steps -/

namespace strings

/-- Go `strings.HasSuffix`: `len(s) >= len(suffix) && s[len(s)-len(suffix):] == suffix`. -/
def HasSuffix (s suffix : String) : Bool :=
  decide (suffix.length ≤ s.length) &&
    decide (s.data.drop (s.length - suffix.length) = suffix.data)

/-- Go `strings.TrimSuffix`: `s` without the trailing `suffix`, or `s` itself. -/
def TrimSuffix (s suffix : String) : String :=
  if HasSuffix s suffix then ⟨s.data.take (s.length - suffix.length)⟩ else s

/-- Does `substr` occur in `s` at some offset (scan from the left). -/
def containsChars (substr : List Char) : List Char → Bool
  | [] => decide (substr = [])
  | c :: cs => decide ((c :: cs).take substr.length = substr) || containsChars substr cs

/-- Go `strings.Contains`: `substr` occurs within `s`. -/
def Contains (s substr : String) : Bool :=
  containsChars substr.data s.data

end strings

/-! ## Commands and the execution module -/

/-- The programs the shell command builder has a constructor for. -/
inductive Program
  | mkdir | rm | mkfs | mount | umount | fuser | df | lsblk | modprobe | command
  deriving DecidableEq, Repr

/-- Modelled from the spec: the built command of `pkg/module` (the shell command
builder, §4.1), which is not among the sources: a program with its ordered
arguments and its ordered added options. "Pure data assembly". -/
structure Command where
  program : Program
  args : List String
  options : List String
  deriving DecidableEq, Repr

/-- Modelled from the spec: `AddOption` of the command builder: "additional
options may be appended before execution"; the option text is the `Sprintf`
of the format, which the caller passes already rendered. -/
def Command.AddOption (c : Command) (option : String) : Command :=
  { c with options := c.options ++ [option] }

/-- Modelled from the spec: the dedicated constructors of the command builder
(`Shell().Mkdir`, `Remove`, `Umount`, ...): the program and the arguments the
caller passes, no option added yet. -/
def Shell.Mkdir (path : String) : Command := ⟨.mkdir, [path], []⟩

/-- Modelled from the spec: `Shell().Remove(file)`. -/
def Shell.Remove (file : String) : Command := ⟨.rm, [file], []⟩

/-- Modelled from the spec: `Shell().Mkfs(device)`. -/
def Shell.Mkfs (device : String) : Command := ⟨.mkfs, [device], []⟩

/-- Modelled from the spec: `Shell().Mount(source, directory)`. -/
def Shell.Mount (source directory : String) : Command := ⟨.mount, [source, directory], []⟩

/-- Modelled from the spec: `Shell().Umount(directory)`. -/
def Shell.Umount (directory : String) : Command := ⟨.umount, [directory], []⟩

/-- Modelled from the spec: `Shell().Fuser(names...)`. -/
def Shell.Fuser (names : List String) : Command := ⟨.fuser, names, []⟩

/-- Modelled from the spec: `Shell().DiskFree(files...)`. -/
def Shell.DiskFree (files : List String) : Command := ⟨.df, files, []⟩

/-- Modelled from the spec: `Shell().LsBlk(device...)`. -/
def Shell.LsBlk (device : List String) : Command := ⟨.lsblk, device, []⟩

/-- Modelled from the spec: `Shell().ModProbe(module, args...)`. -/
def Shell.ModProbe (module : String) (args : List String) : Command :=
  ⟨.modprobe, module :: args, []⟩

/-- Modelled from the spec: `Shell().Command(command)`. -/
def Shell.Command (command : String) : Command := ⟨.command, [command], []⟩

/-- Modelled from the spec: `module.ExecOption`, the ExecutionConfig of §3:
`{ useSudo, runLocally, sudoAlias }`. -/
structure ExecOption where
  ExecWithSudo : Bool
  ExecInLocal : Bool
  ExecSudoAlias : String
  deriving DecidableEq, Repr

/-- The execution module: `cmd.Execute(options)` run in module state `σ`
returns the captured output, the error (`none` is `nil`) and the next state. -/
abbrev Executor (ε σ : Type) := σ → Command → ExecOption → (String × Option ε) × σ

/-- One dispatched command with what the module returned for it. -/
structure Invocation (ε : Type) where
  cmd : Command
  option : ExecOption
  out : String
  err : Option ε

/-- What a loop step did: the returned error, the commands dispatched in
order, and the module state it left. -/
structure Run (ε σ : Type) where
  err : Option ε
  log : List (Invocation ε)
  state : σ

/-- The run that dispatched `inv` and then did `k`. -/
def Run.after {ε σ : Type} (inv : Invocation ε) (k : Run ε σ) : Run ε σ :=
  ⟨k.err, inv :: k.log, k.state⟩

/-! ## `internal/task/step/shell.go` -/

def ERR_NOT_MOUNTED : String := "not mounted"
def ERR_MOUNTPOINT_NOT_FOUND : String := "mountpoint not found"
def ERROR_DEVICE_BUSY : String := "Device or resource busy"

structure CreateDirectory where
  Paths : List String
  ExecWithSudo : Bool
  ExecInLocal : Bool
  ExecSudoAlias : String

structure RemoveFile where
  Files : List String
  ExecWithSudo : Bool
  ExecInLocal : Bool
  ExecSudoAlias : String

structure UmountFilesystem where
  Directorys : List String
  IgnoreUmounted : Bool
  IgnoreNotFound : Bool
  ExecWithSudo : Bool
  ExecInLocal : Bool
  ExecSudoAlias : String

/-- The `for _, path := range s.Paths` loop of `CreateDirectory.Execute`, on
the entries still to visit. -/
def CreateDirectory.range {ε σ : Type} (s : CreateDirectory) (exec : Executor ε σ) :
    List String → σ → Run ε σ
  | [], m => ⟨none, [], m⟩
  | path :: rest, m =>
    if path.length = 0 then
      CreateDirectory.range s exec rest m
    else
      let cmd := (Shell.Mkdir path).AddOption "--parents"
      let option : ExecOption := ⟨s.ExecWithSudo, s.ExecInLocal, s.ExecSudoAlias⟩
      let r := exec m cmd option
      match r.1.2 with
      | some err => ⟨some err, [⟨cmd, option, r.1.1, some err⟩], r.2⟩
      | none => Run.after ⟨cmd, option, r.1.1, none⟩ (CreateDirectory.range s exec rest r.2)

/-- `func (s *CreateDirectory) Execute(ctx *context.Context) error`. -/
def CreateDirectory.Execute {ε σ : Type} (s : CreateDirectory) (exec : Executor ε σ)
    (m : σ) : Run ε σ :=
  s.range exec s.Paths m

/-- The `for _, file := range s.Files` loop of `RemoveFile.Execute`. -/
def RemoveFile.range {ε σ : Type} (s : RemoveFile) (exec : Executor ε σ) :
    List String → σ → Run ε σ
  | [], m => ⟨none, [], m⟩
  | file :: rest, m =>
    if file.length = 0 then
      RemoveFile.range s exec rest m
    else
      let cmd := ((Shell.Remove file).AddOption "--force").AddOption "--recursive"
      let option : ExecOption := ⟨s.ExecWithSudo, s.ExecInLocal, s.ExecSudoAlias⟩
      let r := exec m cmd option
      let out := strings.TrimSuffix r.1.1 "\n"
      match r.1.2 with
      | some err =>
        if !strings.HasSuffix out ERROR_DEVICE_BUSY then
          ⟨some err, [⟨cmd, option, r.1.1, some err⟩], r.2⟩
        else
          Run.after ⟨cmd, option, r.1.1, some err⟩ (RemoveFile.range s exec rest r.2)
      | none => Run.after ⟨cmd, option, r.1.1, none⟩ (RemoveFile.range s exec rest r.2)

/-- `func (s *RemoveFile) Execute(ctx *context.Context) error`. -/
def RemoveFile.Execute {ε σ : Type} (s : RemoveFile) (exec : Executor ε σ)
    (m : σ) : Run ε σ :=
  s.range exec s.Files m

/-- The `for _, directory := range s.Directorys` loop of
`UmountFilesystem.Execute`. -/
def UmountFilesystem.range {ε σ : Type} (s : UmountFilesystem) (exec : Executor ε σ) :
    List String → σ → Run ε σ
  | [], m => ⟨none, [], m⟩
  | directory :: rest, m =>
    if directory.length = 0 then
      UmountFilesystem.range s exec rest m
    else
      let cmd := Shell.Umount directory
      let option : ExecOption := ⟨s.ExecWithSudo, s.ExecInLocal, s.ExecSudoAlias⟩
      let r := exec m cmd option
      let out := strings.TrimSuffix r.1.1 "\n"
      if (s.IgnoreUmounted && strings.Contains out ERR_NOT_MOUNTED) ||
          (s.IgnoreNotFound && strings.Contains out ERR_MOUNTPOINT_NOT_FOUND) then
        Run.after ⟨cmd, option, r.1.1, r.1.2⟩ (UmountFilesystem.range s exec rest r.2)
      else
        match r.1.2 with
        | some err => ⟨some err, [⟨cmd, option, r.1.1, some err⟩], r.2⟩
        | none => Run.after ⟨cmd, option, r.1.1, none⟩ (UmountFilesystem.range s exec rest r.2)

/-- `func (s *UmountFilesystem) Execute(ctx *context.Context) error`. -/
def UmountFilesystem.Execute {ε σ : Type} (s : UmountFilesystem) (exec : Executor ε σ)
    (m : σ) : Run ε σ :=
  s.range exec s.Directorys m

/-! ### Steps with captured output

`Out *string` is a pointer: `none` is `nil`, `some p` is the address of a
string slot; the slots live in a memory `Nat → String`. Storing through a
`nil` pointer panics. -/

/-- What a Go function of result `error` did: returned `nil`, returned an
error, or panicked. -/
inductive Ret (ε : Type)
  | nil
  | error (e : ε)
  | panic
  deriving DecidableEq, Repr

/-- The string slots reachable through `*string` pointers. -/
abbrev Mem := Nat → String

/-- The assignment `*p = v`. -/
def Mem.store (mem : Mem) (p : Nat) (v : String) : Mem :=
  fun q => if q = p then v else mem q

/-- What a step with captured output did: its result, the commands it
dispatched, the module state and the string slots it left. -/
structure OutRun (ε σ : Type) where
  ret : Ret ε
  log : List (Invocation ε)
  state : σ
  mem : Mem

structure Fuser where
  Names : List String
  Out : Option Nat
  ExecWithSudo : Bool
  ExecInLocal : Bool
  ExecSudoAlias : String

structure ShowDiskFree where
  Files : List String
  Format : String
  Out : Option Nat
  ExecWithSudo : Bool
  ExecInLocal : Bool
  ExecSudoAlias : String

structure ListBlockDevice where
  Device : List String
  Format : String
  NoHeadings : Bool
  Out : Option Nat
  ExecWithSudo : Bool
  ExecInLocal : Bool
  ExecSudoAlias : String

structure ShellCommand where
  Command : String
  Out : Option Nat
  ExecWithSudo : Bool
  ExecInLocal : Bool
  ExecSudoAlias : String

/-- `func (s *Fuser) Execute(ctx *context.Context) error`. -/
def Fuser.Execute {ε σ : Type} (s : Fuser) (exec : Executor ε σ) (m : σ) (mem : Mem) :
    OutRun ε σ :=
  let cmd := Shell.Fuser s.Names
  let option : ExecOption := ⟨s.ExecWithSudo, s.ExecInLocal, s.ExecSudoAlias⟩
  let r := exec m cmd option
  match r.1.2 with
  | some err => ⟨.error err, [⟨cmd, option, r.1.1, some err⟩], r.2, mem⟩
  | none =>
    match s.Out with
    | some p =>
      ⟨.nil, [⟨cmd, option, r.1.1, none⟩], r.2, mem.store p (strings.TrimSuffix r.1.1 "\n")⟩
    | none => ⟨.panic, [⟨cmd, option, r.1.1, none⟩], r.2, mem⟩

/-- `func (s *ShowDiskFree) Execute(ctx *context.Context) error`. -/
def ShowDiskFree.Execute {ε σ : Type} (s : ShowDiskFree) (exec : Executor ε σ) (m : σ)
    (mem : Mem) : OutRun ε σ :=
  let cmd := Shell.DiskFree s.Files
  let cmd := if s.Format.length > 0 then cmd.AddOption ("--output=" ++ s.Format) else cmd
  let option : ExecOption := ⟨s.ExecWithSudo, s.ExecInLocal, s.ExecSudoAlias⟩
  let r := exec m cmd option
  match r.1.2 with
  | some err => ⟨.error err, [⟨cmd, option, r.1.1, some err⟩], r.2, mem⟩
  | none =>
    match s.Out with
    | some p =>
      ⟨.nil, [⟨cmd, option, r.1.1, none⟩], r.2, mem.store p (strings.TrimSuffix r.1.1 "\n")⟩
    | none => ⟨.panic, [⟨cmd, option, r.1.1, none⟩], r.2, mem⟩

/-- `func (s *ListBlockDevice) Execute(ctx *context.Context) error`. -/
def ListBlockDevice.Execute {ε σ : Type} (s : ListBlockDevice) (exec : Executor ε σ) (m : σ)
    (mem : Mem) : OutRun ε σ :=
  let cmd := Shell.LsBlk s.Device
  let cmd := if s.Format.length > 0 then cmd.AddOption ("--output=" ++ s.Format) else cmd
  let cmd := if s.NoHeadings then cmd.AddOption "--noheadings" else cmd
  let option : ExecOption := ⟨s.ExecWithSudo, s.ExecInLocal, s.ExecSudoAlias⟩
  let r := exec m cmd option
  match r.1.2 with
  | some err => ⟨.error err, [⟨cmd, option, r.1.1, some err⟩], r.2, mem⟩
  | none =>
    match s.Out with
    | some p =>
      ⟨.nil, [⟨cmd, option, r.1.1, none⟩], r.2, mem.store p (strings.TrimSuffix r.1.1 "\n")⟩
    | none => ⟨.panic, [⟨cmd, option, r.1.1, none⟩], r.2, mem⟩

/-- `func (s *ShellCommand) Execute(ctx *context.Context) error`. -/
def ShellCommand.Execute {ε σ : Type} (s : ShellCommand) (exec : Executor ε σ) (m : σ)
    (mem : Mem) : OutRun ε σ :=
  let cmd := Shell.Command s.Command
  let option : ExecOption := ⟨s.ExecWithSudo, s.ExecInLocal, s.ExecSudoAlias⟩
  let r := exec m cmd option
  match r.1.2 with
  | some err => ⟨.error err, [⟨cmd, option, r.1.1, some err⟩], r.2, mem⟩
  | none =>
    match s.Out with
    | some p =>
      ⟨.nil, [⟨cmd, option, r.1.1, none⟩], r.2, mem.store p (strings.TrimSuffix r.1.1 "\n")⟩
    | none => ⟨.nil, [⟨cmd, option, r.1.1, none⟩], r.2, mem⟩

/-! ## `internal/task/task/playground/run.go` -/

namespace playground

def FORMAT_MOUNT_OPTION (source target : String) : String :=
  "type=bind,source=" ++ source ++ ",target=" ++ target ++ ",bind-propagation=rshared"

/-- Modelled from the spec: `step.Volume` of the container steps, which are
not among the sources. -/
structure Volume where
  HostPath : String
  ContainerPath : String
  deriving DecidableEq, Repr

/-- Modelled from the spec: `step.CreateContainer` ("create container with
computed mount/volume/device/capability parameters"), with the fields that
`NewRunPlaygroundTask` sets; `Out` is the address of the output slot. -/
structure CreateContainer where
  Image : String
  Envs : List String
  Name : String
  Network : String
  Mount : String
  Volumes : List Volume
  Devices : List String
  SecurityOptions : List String
  LinuxCapabilities : List String
  Ulimits : List String
  Privileged : Bool
  Out : Nat
  ExecOptions : ExecOption
  deriving DecidableEq, Repr

/-- The steps a playground task is built from: the two step types of
`run.go` and, modelled from the spec, the container steps `step.PullImage`,
`step.CreateContainer` and `step.StartContainer` (`ContainerId` is the
address of the slot the id is read from). -/
inductive Step
  | step2WaitDone
  | step2CreateNBDDevice (execOptions : ExecOption)
  | PullImage (Image : String) (ExecOptions : ExecOption)
  | CreateContainer (c : CreateContainer)
  | StartContainer (ContainerId : Nat) (ExecOptions : ExecOption)
  deriving DecidableEq, Repr

/-- Modelled from the spec: `task.Task`, "`{ name, subname, steps: ordered
sequence of Step }`" (§3). -/
structure Task where
  name : String
  subname : String
  steps : List Step
  deriving DecidableEq, Repr

/-- Modelled from the spec: `task.NewTask(name, subname, nil)`: a task with no
step yet. -/
def Task.NewTask (name subname : String) : Task := ⟨name, subname, []⟩

/-- Modelled from the spec: `t.AddStep(step)`: the step is added after the
steps already declared. -/
def Task.AddStep (t : Task) (step : Step) : Task :=
  { t with steps := t.steps ++ [step] }

/-- Modelled from the spec: `configure.PlaygroundConfig`, through its four
getters. -/
structure PlaygroundConfig where
  GetKind : String
  GetName : String
  GetContainIamge : String
  GetMointpoint : String

/-- `func (s *step2WaitDone) Execute`: sleeps ten seconds (not modelled) and
returns `nil`; no command is dispatched. -/
def step2WaitDone.Execute {ε σ : Type} (_exec : Executor ε σ) (m : σ) : Run ε σ :=
  ⟨none, [], m⟩

/-- `func (s *step2CreateNBDDevice) Execute`. -/
def step2CreateNBDDevice.Execute {ε σ : Type} (execOptions : ExecOption)
    (exec : Executor ε σ) (m : σ) : Run ε σ :=
  let cmd := Shell.ModProbe "nbd" ["nbds_max=64"]
  let r := exec m cmd execOptions
  ⟨r.1.2, [⟨cmd, execOptions, r.1.1, r.1.2⟩], r.2⟩

/-- `getAttchMount`; `KIND_CURVEBS` is the constant of package `topology`. -/
def getAttchMount (KIND_CURVEBS : String) (kind mountPoint : String) : String :=
  let mount := ""
  if kind = KIND_CURVEBS then mount
  else FORMAT_MOUNT_OPTION mountPoint "/curvefs/client/mnt"

/-- `getMountVolumes`; `KIND_CURVEFS` is the constant of package `topology`. -/
def getMountVolumes (KIND_CURVEFS : String) (kind : String) : List Volume :=
  let volumes : List Volume := []
  if kind = KIND_CURVEFS then volumes
  else [⟨"/dev", "/dev"⟩, ⟨"/lib/modules", "/lib/modules"⟩]

/-- `NewRunPlaygroundTask(curveadm, pc)`. `execOptions` is what
`curveadm.ExecOptions()` returns, `containerId` is the address of the local
variable `containerId`; the result is the task and the returned error. -/
def NewRunPlaygroundTask {ε : Type} (KIND_CURVEBS KIND_CURVEFS : String)
    (execOptions : ExecOption) (containerId : Nat) (pc : PlaygroundConfig) :
    Task × Option ε :=
  let kind := pc.GetKind
  let name := pc.GetName
  let containerImage := pc.GetContainIamge
  let mountPoint := pc.GetMointpoint
  let subname := "kind=" ++ kind ++ " name=" ++ name ++ " image=" ++ containerImage
  let t := Task.NewTask "Run Playground" subname
  let options : ExecOption := { execOptions with ExecInLocal := true }
  let t := t.AddStep (.step2CreateNBDDevice options)
  let t := t.AddStep (.PullImage containerImage options)
  let t := t.AddStep (.CreateContainer {
    Image := containerImage
    Envs := ["LD_PRELOAD=/usr/local/lib/libjemalloc.so"]
    Name := name
    Network := "bridge"
    Mount := getAttchMount KIND_CURVEBS kind mountPoint
    Volumes := getMountVolumes KIND_CURVEFS kind
    Devices := ["/dev/fuse"]
    SecurityOptions := ["apparmor:unconfined"]
    LinuxCapabilities := ["SYS_ADMIN"]
    Ulimits := ["core=-1"]
    Privileged := true
    Out := containerId
    ExecOptions := options })
  let t := t.AddStep (.StartContainer containerId options)
  let t := t.AddStep .step2WaitDone
  (t, none)

end playground

/-! ## `cli/command/check.go` -/

namespace command

/-- Modelled from the spec: `fs.MountStatus`, through the three fields
`runCheck` prints. -/
structure MountStatus where
  MountPoint : String
  ContainerId : String
  Status : String
  deriving DecidableEq, Repr

/-- The dynamic type and value of a non-nil `interface{}` held by the store. -/
inductive Value
  | string (s : String)
  | MountStatus (status : MountStatus)
  | other (typeName : String)
  deriving DecidableEq, Repr

/-- Modelled from the spec: the part of `cli.CurveAdm` that `runCheck` uses:
the shared store ("a mapping from string keys to arbitrary typed values",
`none` for a key never set, which `Get` returns as `nil`) and the text
written out so far. -/
structure CurveAdm where
  memStorage : String → Option Value
  written : List String

/-- Modelled from the spec: `curveadm.MemStorage().Set(key, value)`. -/
def CurveAdm.Set (c : CurveAdm) (key : String) (value : Value) : CurveAdm :=
  { c with memStorage := fun k => if k = key then some value else c.memStorage k }

/-- Modelled from the spec: `curveadm.MemStorage().Get(key)`. -/
def CurveAdm.Get (c : CurveAdm) (key : String) : Option Value :=
  c.memStorage key

/-- Modelled from the spec: `curveadm.WriteOut(format, a...)`, with the text
already rendered. -/
def CurveAdm.WriteOut (c : CurveAdm) (text : String) : CurveAdm :=
  { c with written := c.written ++ [text] }

structure checkOptions where
  mountPoint : String

/-- `runCheck(curveadm, options)`. `ExecTasks` is
`tasks.ExecTasks(tasks.CHECK_MOUNT_STATUS, curveadm, nil)`, `NewPromptError`
is `curveadm.NewPromptError`, the two keys are the constants of package `fs`.
The single-value type assertion `v.(fs.MountStatus)` panics when `v` is `nil`
or holds another type. -/
def runCheck {ε : Type} (ExecTasks : CurveAdm → Option ε × CurveAdm)
    (NewPromptError : ε → String → ε) (KEY_MOUNT_POINT KEY_MOUNT_STATUS : String)
    (curveadm : CurveAdm) (options : checkOptions) : Ret ε × CurveAdm :=
  let mountPoint := strings.TrimSuffix options.mountPoint "/"
  let curveadm := curveadm.Set KEY_MOUNT_POINT (.string mountPoint)
  let r := ExecTasks curveadm
  match r.1 with
  | some err => (.error (NewPromptError err ""), r.2)
  | none =>
    let curveadm := r.2
    let v := curveadm.Get KEY_MOUNT_STATUS
    match v with
    | some (.MountStatus status) =>
      let curveadm := curveadm.WriteOut ("Mount Point : " ++ status.MountPoint ++ "\n")
      let curveadm := curveadm.WriteOut ("Container Id: " ++ status.ContainerId ++ "\n")
      let curveadm := curveadm.WriteOut ("Mount Status: " ++ status.Status ++ "\n")
      (.nil, curveadm)
    | _ => (.panic, curveadm)

end command

/-! ## The common shape of the three loops -/

/-- A loop over path entries that skips empty entries, dispatches `mk entry`
with `option`, returns the error of a failed command whose raw output
satisfies `real`, and otherwise goes on. The three `range` loops of
`shell.go` are instances (`CreateDirectory_range_eq`, `RemoveFile_range_eq`,
`UmountFilesystem_range_eq`). -/
def abortLoop {ε σ : Type} (mk : String → Command) (option : ExecOption)
    (real : String → Bool) (exec : Executor ε σ) : List String → σ → Run ε σ
  | [], m => ⟨none, [], m⟩
  | x :: rest, m =>
    if x.length = 0 then
      abortLoop mk option real exec rest m
    else
      let r := exec m (mk x) option
      if r.1.2.isSome && real r.1.1 then
        ⟨r.1.2, [⟨mk x, option, r.1.1, r.1.2⟩], r.2⟩
      else
        Run.after ⟨mk x, option, r.1.1, r.1.2⟩ (abortLoop mk option real exec rest r.2)

/-- An invocation that makes a loop return: it failed and its raw output
satisfies `real`. -/
def Invocation.aborts {ε : Type} (real : String → Bool) (inv : Invocation ε) : Bool :=
  inv.err.isSome && real inv.out

/-- The rm command `RemoveFile.Execute` builds for `file`. -/
def rmCommand (file : String) : Command :=
  ((Shell.Remove file).AddOption "--force").AddOption "--recursive"

/-- The mkdir command `CreateDirectory.Execute` builds for `path`. -/
def mkdirCommand (path : String) : Command :=
  (Shell.Mkdir path).AddOption "--parents"

/-- Does the captured output, its trailing newline stripped, end with the
device-busy marker. -/
def endsDeviceBusy (out : String) : Bool :=
  strings.HasSuffix (strings.TrimSuffix out "\n") ERROR_DEVICE_BUSY

/-- The suppression test of `UmountFilesystem.Execute` on a captured output. -/
def UmountFilesystem.suppressed (s : UmountFilesystem) (out : String) : Bool :=
  (s.IgnoreUmounted && strings.Contains (strings.TrimSuffix out "\n") ERR_NOT_MOUNTED) ||
    (s.IgnoreNotFound && strings.Contains (strings.TrimSuffix out "\n") ERR_MOUNTPOINT_NOT_FOUND)

/-- Does the captured output end with the not-mounted marker, as captured or
once its trailing newline is stripped. -/
def endsNotMounted (out : String) : Bool :=
  strings.HasSuffix out ERR_NOT_MOUNTED ||
    strings.HasSuffix (strings.TrimSuffix out "\n") ERR_NOT_MOUNTED

/-! ## Modules for concrete runs -/

/-- A module that replays a script: the `m`-th command dispatched gets the
`m`-th (output, error) pair, and succeeds with empty output once the script
is exhausted. The error is an exit code. -/
def scripted (script : List (String × Option Nat)) : Executor Nat Nat :=
  fun m _ _ => (script.getD m ("", none), m + 1)

/-- A module on which every command succeeds, printing nothing. -/
def succeeding : Executor Nat Unit :=
  fun _ _ _ => (("", none), ())

/-- An unmount step that ignores not-mounted failures. -/
def umountIgnoring : UmountFilesystem :=
  ⟨["/mnt/a", "", "/mnt/b"], true, false, true, false, "sudo"⟩

/-- An unmount step with both suppression flags off. -/
def umountStrict : UmountFilesystem :=
  ⟨["/mnt/a", "", "/mnt/b", "/mnt/c"], false, false, true, false, "sudo"⟩

/-- The module on which the second umount fails: the path is not mounted. -/
def secondNotMounted : Executor Nat Nat :=
  scripted [("", none), ("umount: /mnt/b: not mounted.\n", some 32)]

/-- The module on which the first command fails, the path is not mounted. -/
def firstNotMounted : Executor Nat Nat :=
  scripted [("umount: /mnt/a: not mounted\n", some 32)]

/-- A directory-creation step over four entries, one of them empty. -/
def createFour : CreateDirectory :=
  ⟨["/data/a", "", "/data/b", "/data/c"], false, true, ""⟩

/-- The module on which the second command is refused. -/
def secondDenied : Executor Nat Nat :=
  scripted [("", none), ("mkdir: cannot create directory /data/b: Permission denied\n", some 1)]

/-- A file-removal step over three entries. -/
def removeThree : RemoveFile :=
  ⟨["/mnt/a", "/data/b", "/data/c"], false, true, ""⟩

/-- The module on which the first rm hits a busy mount point and the second
is refused. -/
def busyThenDenied : Executor Nat Nat :=
  scripted [("rm: cannot remove /mnt/a: Device or resource busy\n", some 1),
    ("rm: cannot remove /data/b: Permission denied\n", some 1)]

/-- String slots that all hold "old". -/
def staleMem : Mem := fun _ => "old"

/-- A fuser step writing to slot 7. -/
def fuserSeven : Fuser := ⟨["/mnt/a"], some 7, true, false, "sudo"⟩

/-- A disk-free step with a format, writing to slot 7. -/
def diskFreeSeven : ShowDiskFree := ⟨["/data"], "avail", some 7, false, true, ""⟩

/-- A block-device listing with a format and no headings, writing to slot 7. -/
def listBlockSeven : ListBlockDevice :=
  ⟨["/dev/sda"], "NAME", true, some 7, false, true, ""⟩

/-- A shell command writing to slot 7. -/
def shellSeven : ShellCommand := ⟨"uname -r", some 7, false, true, ""⟩

/-- A check task that succeeds without storing a mount status. -/
def silentTasks : command.CurveAdm → Option String × command.CurveAdm :=
  fun c => (none, c)

/-- A check task that succeeds and stores a string under the status key. -/
def stringTasks : command.CurveAdm → Option String × command.CurveAdm :=
  fun c => (none, c.Set "KEY_MOUNT_STATUS" (.string "mounted"))

/-- A tool state with an empty store and nothing written. -/
def freshCurveAdm : command.CurveAdm := ⟨fun _ => none, []⟩

/-- A prompt error: the error text followed by the prompt. -/
def promptError (err prompt : String) : String := err ++ prompt

/-! ## Lemmas on the string functions -/

namespace strings

theorem containsChars_of_drop (substr : List Char) :
    ∀ (l : List Char) (k : Nat), l.drop k = substr → containsChars substr l = true := by
  intro l
  induction l with
  | nil =>
    intro k h
    simp at h
    simp [containsChars, h]
  | cons c cs ih =>
    intro k h
    cases k with
    | zero =>
      simp at h
      simp [containsChars, ← h]
    | succ k =>
      simp at h
      simp [containsChars, ih k h]

theorem Contains_of_HasSuffix (s suffix : String) (h : HasSuffix s suffix = true) :
    Contains s suffix = true := by
  unfold HasSuffix at h
  simp at h
  exact containsChars_of_drop _ _ _ h.2

end strings

/-! ## Lemmas on the loops -/

theorem CreateDirectory_range_eq {ε σ : Type} (s : CreateDirectory) (exec : Executor ε σ) :
    ∀ (l : List String) (m : σ),
      s.range exec l m =
        abortLoop mkdirCommand ⟨s.ExecWithSudo, s.ExecInLocal, s.ExecSudoAlias⟩
          (fun _ => true) exec l m := by
  intro l
  induction l with
  | nil => intro m; rfl
  | cons x rest ih =>
    intro m
    unfold CreateDirectory.range abortLoop
    by_cases hx : x.length = 0
    · simp only [hx, if_true]; exact ih m
    · simp only [hx, if_false, mkdirCommand]
      cases h : (exec m ((Shell.Mkdir x).AddOption "--parents")
        ⟨s.ExecWithSudo, s.ExecInLocal, s.ExecSudoAlias⟩).1.2 with
      | none => simp [ih]
      | some e => simp

theorem RemoveFile_range_eq {ε σ : Type} (s : RemoveFile) (exec : Executor ε σ) :
    ∀ (l : List String) (m : σ),
      s.range exec l m =
        abortLoop rmCommand ⟨s.ExecWithSudo, s.ExecInLocal, s.ExecSudoAlias⟩
          (fun out => !endsDeviceBusy out) exec l m := by
  intro l
  induction l with
  | nil => intro m; rfl
  | cons x rest ih =>
    intro m
    unfold RemoveFile.range abortLoop
    by_cases hx : x.length = 0
    · simp only [hx, if_true]; exact ih m
    · simp only [endsDeviceBusy] at ih
      simp only [hx, if_false, rmCommand, endsDeviceBusy]
      cases h : (exec m (((Shell.Remove x).AddOption "--force").AddOption "--recursive")
        ⟨s.ExecWithSudo, s.ExecInLocal, s.ExecSudoAlias⟩).1.2 with
      | none => simp [ih]
      | some e =>
        by_cases hb : strings.HasSuffix (strings.TrimSuffix (exec m
          (((Shell.Remove x).AddOption "--force").AddOption "--recursive")
          ⟨s.ExecWithSudo, s.ExecInLocal, s.ExecSudoAlias⟩).1.1 "\n") ERROR_DEVICE_BUSY = true
        · simp [hb, ih]
        · simp [hb]

theorem UmountFilesystem_range_eq {ε σ : Type} (s : UmountFilesystem) (exec : Executor ε σ) :
    ∀ (l : List String) (m : σ),
      s.range exec l m =
        abortLoop Shell.Umount ⟨s.ExecWithSudo, s.ExecInLocal, s.ExecSudoAlias⟩
          (fun out => !s.suppressed out) exec l m := by
  intro l
  induction l with
  | nil => intro m; rfl
  | cons x rest ih =>
    intro m
    unfold UmountFilesystem.range abortLoop
    by_cases hx : x.length = 0
    · simp only [hx, if_true]; exact ih m
    · simp only [hx, if_false]
      by_cases hb : s.suppressed (exec m (Shell.Umount x)
          ⟨s.ExecWithSudo, s.ExecInLocal, s.ExecSudoAlias⟩).1.1 = true
      · have hb2 := hb
        unfold UmountFilesystem.suppressed at hb2
        simp only [hb2, if_true, hb, ih]
        simp
      · have hb2 := hb
        unfold UmountFilesystem.suppressed at hb2
        simp only [hb2, hb]
        cases h : (exec m (Shell.Umount x)
          ⟨s.ExecWithSudo, s.ExecInLocal, s.ExecSudoAlias⟩).1.2 with
        | none => simp [ih]
        | some e => simp

theorem abortLoop_cons_skip {ε σ : Type} (mk : String → Command) (option : ExecOption)
    (real : String → Bool) (exec : Executor ε σ) (x : String) (rest : List String) (m : σ)
    (hx : x.length = 0) :
    abortLoop mk option real exec (x :: rest) m = abortLoop mk option real exec rest m := by
  rw [abortLoop]
  simp only [hx, if_true]

theorem abortLoop_cons_abort {ε σ : Type} (mk : String → Command) (option : ExecOption)
    (real : String → Bool) (exec : Executor ε σ) (x : String) (rest : List String) (m : σ)
    (hx : ¬ x.length = 0)
    (hb : ((exec m (mk x) option).1.2.isSome && real (exec m (mk x) option).1.1) = true) :
    abortLoop mk option real exec (x :: rest) m =
      ⟨(exec m (mk x) option).1.2,
        [⟨mk x, option, (exec m (mk x) option).1.1, (exec m (mk x) option).1.2⟩],
        (exec m (mk x) option).2⟩ := by
  rw [abortLoop]
  simp only [hx, if_false]
  rw [if_pos hb]

theorem abortLoop_cons_continue {ε σ : Type} (mk : String → Command) (option : ExecOption)
    (real : String → Bool) (exec : Executor ε σ) (x : String) (rest : List String) (m : σ)
    (hx : ¬ x.length = 0)
    (hb : ¬ ((exec m (mk x) option).1.2.isSome && real (exec m (mk x) option).1.1) = true) :
    abortLoop mk option real exec (x :: rest) m =
      ⟨(abortLoop mk option real exec rest (exec m (mk x) option).2).err,
        ⟨mk x, option, (exec m (mk x) option).1.1, (exec m (mk x) option).1.2⟩ ::
          (abortLoop mk option real exec rest (exec m (mk x) option).2).log,
        (abortLoop mk option real exec rest (exec m (mk x) option).2).state⟩ := by
  rw [abortLoop]
  simp only [hx, if_false]
  rw [if_neg hb]
  rfl

theorem length_eq_zero_iff (x : String) : x.length = 0 ↔ x = "" := by
  constructor
  · intro h
    have hd : x.data = [] := List.length_eq_zero.mp h
    exact String.ext hd
  · intro h
    subst h
    rfl

/-- Empty entries do not change what a loop does. -/
theorem abortLoop_filter {ε σ : Type} (mk : String → Command) (option : ExecOption)
    (real : String → Bool) (exec : Executor ε σ) :
    ∀ (l : List String) (m : σ),
      abortLoop mk option real exec l m =
        abortLoop mk option real exec (l.filter (fun x => decide (x ≠ ""))) m := by
  intro l
  induction l with
  | nil => intro m; rfl
  | cons x rest ih =>
    intro m
    by_cases hx : x = ""
    · subst hx
      have h0 : ("" : String).length = 0 := rfl
      simp only [abortLoop, h0, if_true, ne_eq, not_true_eq_false, decide_False,
        Bool.false_eq_true, not_false_eq_true, List.filter_cons_of_neg]
      exact ih m
    · have hl : ¬ x.length = 0 := fun h => hx ((length_eq_zero_iff x).mp h)
      have hf : (x :: rest).filter (fun x => decide (x ≠ "")) =
          x :: rest.filter (fun x => decide (x ≠ "")) := by
        simp [hx]
      rw [hf]
      simp only [abortLoop, hl, if_false]
      rw [ih]

/-- A loop over `pre ++ post` is the loop over `pre`, followed, when that
returned no error, by the loop over `post` from the state it left. -/
theorem abortLoop_append {ε σ : Type} (mk : String → Command) (option : ExecOption)
    (real : String → Bool) (exec : Executor ε σ) (post : List String) :
    ∀ (pre : List String) (m : σ),
      abortLoop mk option real exec (pre ++ post) m =
        if (abortLoop mk option real exec pre m).err.isSome then
          abortLoop mk option real exec pre m
        else
          ⟨(abortLoop mk option real exec post (abortLoop mk option real exec pre m).state).err,
            (abortLoop mk option real exec pre m).log ++
              (abortLoop mk option real exec post (abortLoop mk option real exec pre m).state).log,
            (abortLoop mk option real exec post
              (abortLoop mk option real exec pre m).state).state⟩ := by
  intro pre
  induction pre with
  | nil => intro m; simp [abortLoop]
  | cons x rest ih =>
    intro m
    rw [List.cons_append]
    by_cases hx : x.length = 0
    · rw [abortLoop_cons_skip _ _ _ _ _ _ _ hx, abortLoop_cons_skip _ _ _ _ _ _ _ hx]
      exact ih m
    · by_cases hb : ((exec m (mk x) option).1.2.isSome && real (exec m (mk x) option).1.1) = true
      · have hs : (exec m (mk x) option).1.2.isSome = true := by
          simp only [Bool.and_eq_true] at hb
          exact hb.1
        rw [abortLoop_cons_abort _ _ _ _ _ _ _ hx hb, abortLoop_cons_abort _ _ _ _ _ _ _ hx hb]
        simp only [hs, if_true]
      · rw [abortLoop_cons_continue _ _ _ _ _ _ _ hx hb,
          abortLoop_cons_continue _ _ _ _ _ _ _ hx hb, ih]
        by_cases he : (abortLoop mk option real exec rest (exec m (mk x) option).2).err.isSome
            = true
        · simp [he]
        · simp [he]

/-- Every dispatched command is the command of a non-empty entry, dispatched
with the options of the step. -/
theorem abortLoop_log_mem {ε σ : Type} (mk : String → Command) (option : ExecOption)
    (real : String → Bool) (exec : Executor ε σ) :
    ∀ (l : List String) (m : σ) (inv : Invocation ε),
      inv ∈ (abortLoop mk option real exec l m).log →
        ∃ x, x ∈ l ∧ x ≠ "" ∧ inv.cmd = mk x ∧ inv.option = option := by
  intro l
  induction l with
  | nil => intro m inv h; simp [abortLoop] at h
  | cons x rest ih =>
    intro m inv h
    by_cases hx : x.length = 0
    · rw [abortLoop_cons_skip _ _ _ _ _ _ _ hx] at h
      obtain ⟨y, hy, hne, hc⟩ := ih m inv h
      exact ⟨y, List.mem_cons_of_mem _ hy, hne, hc⟩
    · have hne : x ≠ "" := fun h => hx ((length_eq_zero_iff x).mpr h)
      by_cases hb : ((exec m (mk x) option).1.2.isSome && real (exec m (mk x) option).1.1) = true
      · rw [abortLoop_cons_abort _ _ _ _ _ _ _ hx hb] at h
        simp only [List.mem_singleton] at h
        subst h
        exact ⟨x, List.mem_cons_self _ _, hne, rfl, rfl⟩
      · rw [abortLoop_cons_continue _ _ _ _ _ _ _ hx hb] at h
        simp only [List.mem_cons] at h
        rcases h with h | h
        · subst h
          exact ⟨x, List.mem_cons_self _ _, hne, rfl, rfl⟩
        · obtain ⟨y, hy, hne2, hc⟩ := ih _ inv h
          exact ⟨y, List.mem_cons_of_mem _ hy, hne2, hc⟩

/-- When no dispatched command aborts the loop, the loop returns no error and
has dispatched the command of every non-empty entry, in list order. -/
theorem abortLoop_complete {ε σ : Type} (mk : String → Command) (option : ExecOption)
    (real : String → Bool) (exec : Executor ε σ) :
    ∀ (l : List String) (m : σ),
      (∀ inv ∈ (abortLoop mk option real exec l m).log, inv.aborts real = false) →
        (abortLoop mk option real exec l m).err = none ∧
        (abortLoop mk option real exec l m).log.map (fun inv => inv.cmd) =
          (l.filter (fun x => decide (x ≠ ""))).map mk := by
  intro l
  induction l with
  | nil => intro m _; simp [abortLoop]
  | cons x rest ih =>
    intro m h
    by_cases hx : x.length = 0
    · have hxe : x = "" := (length_eq_zero_iff x).mp hx
      rw [abortLoop_cons_skip _ _ _ _ _ _ _ hx] at h ⊢
      have := ih m h
      simpa [hxe] using this
    · have hne : x ≠ "" := fun h => hx ((length_eq_zero_iff x).mpr h)
      by_cases hb : ((exec m (mk x) option).1.2.isSome && real (exec m (mk x) option).1.1) = true
      · rw [abortLoop_cons_abort _ _ _ _ _ _ _ hx hb] at h
        have h1 := h _ (List.mem_singleton.mpr rfl)
        simp only [Invocation.aborts] at h1
        rw [hb] at h1
        exact absurd h1 (by simp)
      · rw [abortLoop_cons_continue _ _ _ _ _ _ _ hx hb] at h ⊢
        have := ih _ (fun inv hinv => h inv (List.mem_cons_of_mem _ hinv))
        simp [hne, this.1, this.2]

/-- When the loop returns no error, no dispatched command aborted it. -/
theorem abortLoop_err_none {ε σ : Type} (mk : String → Command) (option : ExecOption)
    (real : String → Bool) (exec : Executor ε σ) :
    ∀ (l : List String) (m : σ),
      (abortLoop mk option real exec l m).err = none →
        ∀ inv ∈ (abortLoop mk option real exec l m).log, inv.aborts real = false := by
  intro l
  induction l with
  | nil => intro m _ inv h; simp [abortLoop] at h
  | cons x rest ih =>
    intro m he
    by_cases hx : x.length = 0
    · rw [abortLoop_cons_skip _ _ _ _ _ _ _ hx] at he ⊢
      exact ih m he
    · by_cases hb : ((exec m (mk x) option).1.2.isSome && real (exec m (mk x) option).1.1) = true
      · rw [abortLoop_cons_abort _ _ _ _ _ _ _ hx hb] at he
        simp only [Bool.and_eq_true] at hb
        simp only at he
        rw [he] at hb
        simp at hb
      · rw [abortLoop_cons_continue _ _ _ _ _ _ _ hx hb] at he ⊢
        intro inv hinv
        simp only [List.mem_cons] at hinv
        rcases hinv with h | h
        · subst h
          simpa [Invocation.aborts] using hb
        · exact ih _ he inv h

/-- The loop stops at the first aborting command: when no command of the
entries `pre` aborts and the command of the non-empty entry `x` does, the
loop over `pre ++ x :: post` returns the error of that command, and its log
is the log of `pre` followed by that command alone. -/
theorem abortLoop_abort_at {ε σ : Type} (mk : String → Command) (option : ExecOption)
    (real : String → Bool) (exec : Executor ε σ) (pre post : List String) (x : String)
    (m : σ) (hx : x ≠ "")
    (hpre : ∀ inv ∈ (abortLoop mk option real exec pre m).log, inv.aborts real = false)
    (hb : ((exec (abortLoop mk option real exec pre m).state (mk x) option).1.2.isSome &&
      real (exec (abortLoop mk option real exec pre m).state (mk x) option).1.1) = true) :
    abortLoop mk option real exec (pre ++ x :: post) m =
      ⟨(exec (abortLoop mk option real exec pre m).state (mk x) option).1.2,
        (abortLoop mk option real exec pre m).log ++
          [⟨mk x, option, (exec (abortLoop mk option real exec pre m).state (mk x) option).1.1,
            (exec (abortLoop mk option real exec pre m).state (mk x) option).1.2⟩],
        (exec (abortLoop mk option real exec pre m).state (mk x) option).2⟩ := by
  have hl : ¬ x.length = 0 := fun h => hx ((length_eq_zero_iff x).mp h)
  have hnone := (abortLoop_complete mk option real exec pre m hpre).1
  rw [abortLoop_append, abortLoop_cons_abort _ _ _ _ _ _ _ hl hb]
  simp [hnone]

/-- The loop goes on after a command that does not abort it: when no command
of the entries `pre` aborts and the command of the non-empty entry `x` does
not either, the loop over `pre ++ x :: post` is the log of `pre`, that
command, and then the loop over `post` from the state the command left. -/
theorem abortLoop_continue_at {ε σ : Type} (mk : String → Command) (option : ExecOption)
    (real : String → Bool) (exec : Executor ε σ) (pre post : List String) (x : String)
    (m : σ) (hx : x ≠ "")
    (hpre : ∀ inv ∈ (abortLoop mk option real exec pre m).log, inv.aborts real = false)
    (hb : ¬ ((exec (abortLoop mk option real exec pre m).state (mk x) option).1.2.isSome &&
      real (exec (abortLoop mk option real exec pre m).state (mk x) option).1.1) = true) :
    abortLoop mk option real exec (pre ++ x :: post) m =
      ⟨(abortLoop mk option real exec post
          (exec (abortLoop mk option real exec pre m).state (mk x) option).2).err,
        (abortLoop mk option real exec pre m).log ++
          ⟨mk x, option, (exec (abortLoop mk option real exec pre m).state (mk x) option).1.1,
            (exec (abortLoop mk option real exec pre m).state (mk x) option).1.2⟩ ::
          (abortLoop mk option real exec post
            (exec (abortLoop mk option real exec pre m).state (mk x) option).2).log,
        (abortLoop mk option real exec post
          (exec (abortLoop mk option real exec pre m).state (mk x) option).2).state⟩ := by
  have hl : ¬ x.length = 0 := fun h => hx ((length_eq_zero_iff x).mp h)
  have hnone := (abortLoop_complete mk option real exec pre m hpre).1
  rw [abortLoop_append, abortLoop_cons_continue _ _ _ _ _ _ _ hl hb]
  simp [hnone]

/-- The first command a loop dispatches is the command of the first
non-empty entry. -/
theorem abortLoop_head {ε σ : Type} (mk : String → Command) (option : ExecOption)
    (real : String → Bool) (exec : Executor ε σ) :
    ∀ (l : List String) (m : σ),
      (abortLoop mk option real exec l m).log.head?.map (fun inv => inv.cmd) =
        (l.filter (fun x => decide (x ≠ ""))).head?.map mk := by
  intro l
  induction l with
  | nil => intro m; simp [abortLoop]
  | cons x rest ih =>
    intro m
    by_cases hx : x.length = 0
    · have hxe : x = "" := (length_eq_zero_iff x).mp hx
      rw [abortLoop_cons_skip _ _ _ _ _ _ _ hx, ih]
      simp [hxe]
    · have hne : x ≠ "" := fun h => hx ((length_eq_zero_iff x).mpr h)
      by_cases hb : ((exec m (mk x) option).1.2.isSome && real (exec m (mk x) option).1.1) = true
      · rw [abortLoop_cons_abort _ _ _ _ _ _ _ hx hb]
        simp [hne]
      · rw [abortLoop_cons_continue _ _ _ _ _ _ _ hx hb]
        simp [hne]

theorem CreateDirectory_Execute_eq {ε σ : Type} (s : CreateDirectory) (exec : Executor ε σ)
    (l : List String) (m : σ) :
    ({ s with Paths := l } : CreateDirectory).Execute exec m =
      abortLoop mkdirCommand ⟨s.ExecWithSudo, s.ExecInLocal, s.ExecSudoAlias⟩
        (fun _ => true) exec l m :=
  CreateDirectory_range_eq { s with Paths := l } exec l m

theorem RemoveFile_Execute_eq {ε σ : Type} (s : RemoveFile) (exec : Executor ε σ)
    (l : List String) (m : σ) :
    ({ s with Files := l } : RemoveFile).Execute exec m =
      abortLoop rmCommand ⟨s.ExecWithSudo, s.ExecInLocal, s.ExecSudoAlias⟩
        (fun out => !endsDeviceBusy out) exec l m :=
  RemoveFile_range_eq { s with Files := l } exec l m

theorem UmountFilesystem_Execute_eq {ε σ : Type} (s : UmountFilesystem) (exec : Executor ε σ)
    (l : List String) (m : σ) :
    ({ s with Directorys := l } : UmountFilesystem).Execute exec m =
      abortLoop Shell.Umount ⟨s.ExecWithSudo, s.ExecInLocal, s.ExecSudoAlias⟩
        (fun out => !s.suppressed out) exec l m :=
  UmountFilesystem_range_eq { s with Directorys := l } exec l m

theorem TrimSuffix_of_not_mounted (out : String)
    (h : strings.HasSuffix out ERR_NOT_MOUNTED = true) :
    strings.TrimSuffix out "\n" = out := by
  unfold strings.TrimSuffix
  by_cases hn : strings.HasSuffix out "\n" = true
  · exfalso
    unfold strings.HasSuffix at h hn
    simp only [Bool.and_eq_true, decide_eq_true_eq] at h hn
    have hlen : ERR_NOT_MOUNTED.length = 11 := by decide
    have hlen1 : ("\n" : String).length = 1 := by decide
    rw [hlen] at h
    rw [hlen1] at hn
    have hd : out.data.drop (out.length - 1) = (out.data.drop (out.length - 11)).drop 10 := by
      rw [List.drop_drop]
      congr 1
      omega
    rw [hd, h.2] at hn
    exact absurd hn.2 (by decide)
  · simp [hn]

theorem endsNotMounted_contains (out : String) (h : endsNotMounted out = true) :
    strings.Contains (strings.TrimSuffix out "\n") ERR_NOT_MOUNTED = true := by
  unfold endsNotMounted at h
  simp only [Bool.or_eq_true] at h
  rcases h with h | h
  · rw [TrimSuffix_of_not_mounted out h]
    exact strings.Contains_of_HasSuffix _ _ h
  · exact strings.Contains_of_HasSuffix _ _ h

/-! ## Properties of the steps -/

/-- C1: `RemoveFile.Execute` treats a device-busy failure as success. For
every list `Files`, every module and every module state: if every rm that the
step dispatches and that fails returned an output which, its trailing newline
stripped, ends with "Device or resource busy", then `Execute` returns no
error, and the commands dispatched are the rm (with `--force`, `--recursive`)
of every non-empty entry of `Files`, in list order. -/
theorem RemoveFile_Execute_device_busy {ε σ : Type} (s : RemoveFile) (exec : Executor ε σ)
    (m : σ)
    (hbusy : ∀ inv ∈ (s.Execute exec m).log, inv.err ≠ none →
      strings.HasSuffix (strings.TrimSuffix inv.out "\n") ERROR_DEVICE_BUSY = true) :
    (s.Execute exec m).err = none ∧
    (s.Execute exec m).log.map (fun inv => inv.cmd) =
      (s.Files.filter (fun file => decide (file ≠ ""))).map
        (fun file => ⟨Program.rm, [file], ["--force", "--recursive"]⟩) := by
  have hE := RemoveFile_Execute_eq s exec s.Files m
  change s.Execute exec m = _ at hE
  rw [hE] at hbusy ⊢
  have hno : ∀ inv ∈ (abortLoop rmCommand ⟨s.ExecWithSudo, s.ExecInLocal, s.ExecSudoAlias⟩
      (fun out => !endsDeviceBusy out) exec s.Files m).log,
      inv.aborts (fun out => !endsDeviceBusy out) = false := by
    intro inv hinv
    have := hbusy inv hinv
    unfold Invocation.aborts endsDeviceBusy
    cases he : inv.err with
    | none => simp
    | some e =>
      have h2 := this (by simp [he])
      simp [h2]
  exact abortLoop_complete _ _ _ _ _ _ hno

theorem RemoveFile_Execute_device_busy_witness :
    ((RemoveFile.mk ["/mnt/a", "", "/tmp/b"] true false "sudo").Execute
      (scripted [("rm: cannot remove /mnt/a: Device or resource busy\n", some 1)]) 0).err
        = none ∧
    ((RemoveFile.mk ["/mnt/a", "", "/tmp/b"] true false "sudo").Execute
      (scripted [("rm: cannot remove /mnt/a: Device or resource busy\n", some 1)]) 0).log.map
        (fun inv => inv.cmd) =
      [⟨Program.rm, ["/mnt/a"], ["--force", "--recursive"]⟩,
        ⟨Program.rm, ["/tmp/b"], ["--force", "--recursive"]⟩] :=
  RemoveFile_Execute_device_busy (RemoveFile.mk ["/mnt/a", "", "/tmp/b"] true false "sudo")
    (scripted [("rm: cannot remove /mnt/a: Device or resource busy\n", some 1)]) 0
    (by decide)

/-- C2: `UmountFilesystem.Execute` with `IgnoreUmounted = true` suppresses
not-mounted failures and continues. For every list `Directorys`, module and
module state: (1) when the loop reaches the non-empty directory `d` (the
entries `pre` before it were run without a returned error) and its umount
fails with an output ending in "not mounted", the step does not return that
failure: it goes on with the entries `post` after `d`, its result is the
result of that continuation, and the next command dispatched is the umount of
the next non-empty directory; (2) if every failing umount of the run has such
an output, `Execute` returns no error and has dispatched the umount of every
non-empty directory, in list order. -/
theorem UmountFilesystem_Execute_ignore_umounted {ε σ : Type} (s : UmountFilesystem)
    (exec : Executor ε σ) (m : σ) (hflag : s.IgnoreUmounted = true) :
    (∀ (pre post : List String) (d : String) (e : ε) (before rest : Run ε σ)
        (r : (String × Option ε) × σ),
      s.Directorys = pre ++ d :: post → d ≠ "" →
      before = ({ s with Directorys := pre } : UmountFilesystem).Execute exec m →
      before.err = none →
      r = exec before.state (Shell.Umount d)
        ⟨s.ExecWithSudo, s.ExecInLocal, s.ExecSudoAlias⟩ →
      r.1.2 = some e → endsNotMounted r.1.1 = true →
      rest = ({ s with Directorys := post } : UmountFilesystem).Execute exec r.2 →
        (s.Execute exec m).err = rest.err ∧
        (s.Execute exec m).log = before.log ++
          ⟨Shell.Umount d, ⟨s.ExecWithSudo, s.ExecInLocal, s.ExecSudoAlias⟩, r.1.1, some e⟩ ::
            rest.log ∧
        (s.Execute exec m).state = rest.state ∧
        rest.log.head?.map (fun inv => inv.cmd) =
          (post.filter (fun x => decide (x ≠ ""))).head?.map Shell.Umount) ∧
    ((∀ inv ∈ (s.Execute exec m).log, inv.err ≠ none → endsNotMounted inv.out = true) →
      (s.Execute exec m).err = none ∧
      (s.Execute exec m).log.map (fun inv => inv.cmd) =
        (s.Directorys.filter (fun x => decide (x ≠ ""))).map Shell.Umount) := by
  have hE := UmountFilesystem_Execute_eq s exec s.Directorys m
  change s.Execute exec m = _ at hE
  have hsup : ∀ out, endsNotMounted out = true → s.suppressed out = true := by
    intro out h
    unfold UmountFilesystem.suppressed
    rw [hflag, endsNotMounted_contains out h]
    simp
  constructor
  · intro pre post d e before rest r hD hd hbefore herr hr hre hout hrest
    rw [UmountFilesystem_Execute_eq] at hbefore hrest
    rw [hE, hD]
    have hpre := abortLoop_err_none _ _ _ _ _ _ (hbefore ▸ herr)
    rw [← hbefore] at hpre
    subst hbefore
    subst hr
    have hb : ¬ ((exec (abortLoop Shell.Umount ⟨s.ExecWithSudo, s.ExecInLocal, s.ExecSudoAlias⟩
        (fun out => !s.suppressed out) exec pre m).state (Shell.Umount d)
        ⟨s.ExecWithSudo, s.ExecInLocal, s.ExecSudoAlias⟩).1.2.isSome &&
        (fun out => !s.suppressed out)
          (exec (abortLoop Shell.Umount ⟨s.ExecWithSudo, s.ExecInLocal, s.ExecSudoAlias⟩
            (fun out => !s.suppressed out) exec pre m).state (Shell.Umount d)
            ⟨s.ExecWithSudo, s.ExecInLocal, s.ExecSudoAlias⟩).1.1) = true := by
      simp [hsup _ hout]
    rw [abortLoop_continue_at _ _ _ _ _ _ _ _ hd hpre hb]
    subst hrest
    refine ⟨rfl, ?_, rfl, abortLoop_head _ _ _ _ _ _⟩
    simp only [hre]
  · intro hall
    rw [hE] at hall ⊢
    have hno : ∀ inv ∈ (abortLoop Shell.Umount ⟨s.ExecWithSudo, s.ExecInLocal, s.ExecSudoAlias⟩
        (fun out => !s.suppressed out) exec s.Directorys m).log,
        inv.aborts (fun out => !s.suppressed out) = false := by
      intro inv hinv
      have := hall inv hinv
      unfold Invocation.aborts
      cases he : inv.err with
      | none => simp
      | some e =>
        have h2 := hsup _ (this (by simp [he]))
        simp [h2]
    exact abortLoop_complete _ _ _ _ _ _ hno

theorem UmountFilesystem_Execute_ignore_umounted_witness :
    ((umountIgnoring.Execute firstNotMounted 0).err = none ∧
      (umountIgnoring.Execute firstNotMounted 0).log.map (fun inv => inv.cmd) =
        [Shell.Umount "/mnt/a", Shell.Umount "/mnt/b"]) ∧
    (umountIgnoring.Execute firstNotMounted 0).log =
      [] ++ ⟨Shell.Umount "/mnt/a", ⟨true, false, "sudo"⟩, "umount: /mnt/a: not mounted\n",
        some 32⟩ ::
        (({ umountIgnoring with Directorys := ["", "/mnt/b"] } : UmountFilesystem).Execute
          firstNotMounted 1).log :=
  ⟨(UmountFilesystem_Execute_ignore_umounted umountIgnoring firstNotMounted 0 rfl).2
      (by decide),
    ((UmountFilesystem_Execute_ignore_umounted umountIgnoring firstNotMounted 0 rfl).1
      [] ["", "/mnt/b"] "/mnt/a" 32 ⟨none, [], 0⟩ _
      (("umount: /mnt/a: not mounted\n", some 32), 1)
      rfl (by decide) rfl rfl rfl rfl (by decide) rfl).2.1⟩

/-- C3: `UmountFilesystem.Execute` with `IgnoreUmounted = false` and
`IgnoreNotFound = false` propagates a failure verbatim. For every list
`Directorys`, module and module state: when the umounts dispatched for the
entries `pre` before the non-empty directory `d` all succeeded and the umount
of `d` fails with error `e`, whatever its output, `Execute` returns exactly
`e`, and the commands dispatched are the umounts of the non-empty entries of
`pre` followed by the umount of `d`: nothing is dispatched for an entry after
`d`. -/
theorem UmountFilesystem_Execute_propagates {ε σ : Type} (s : UmountFilesystem)
    (exec : Executor ε σ) (m : σ) (hU : s.IgnoreUmounted = false)
    (hN : s.IgnoreNotFound = false)
    (pre post : List String) (d : String) (e : ε) (before : Run ε σ)
    (r : (String × Option ε) × σ)
    (hD : s.Directorys = pre ++ d :: post) (hd : d ≠ "")
    (hbefore : before = ({ s with Directorys := pre } : UmountFilesystem).Execute exec m)
    (hok : ∀ inv ∈ before.log, inv.err = none)
    (hr : r = exec before.state (Shell.Umount d)
      ⟨s.ExecWithSudo, s.ExecInLocal, s.ExecSudoAlias⟩)
    (hfail : r.1.2 = some e) :
    (s.Execute exec m).err = some e ∧
    (s.Execute exec m).log = before.log ++
      [⟨Shell.Umount d, ⟨s.ExecWithSudo, s.ExecInLocal, s.ExecSudoAlias⟩, r.1.1, some e⟩] ∧
    (s.Execute exec m).state = r.2 ∧
    before.log.map (fun inv => inv.cmd) =
      (pre.filter (fun x => decide (x ≠ ""))).map Shell.Umount := by
  have hE := UmountFilesystem_Execute_eq s exec s.Directorys m
  change s.Execute exec m = _ at hE
  have hsup : ∀ out, s.suppressed out = false := by
    intro out
    unfold UmountFilesystem.suppressed
    rw [hU, hN]
    simp
  rw [UmountFilesystem_Execute_eq] at hbefore
  have hpre : ∀ inv ∈ (abortLoop Shell.Umount ⟨s.ExecWithSudo, s.ExecInLocal, s.ExecSudoAlias⟩
      (fun out => !s.suppressed out) exec pre m).log,
      inv.aborts (fun out => !s.suppressed out) = false := by
    intro inv hinv
    have := hok inv (hbefore ▸ hinv)
    simp [Invocation.aborts, this]
  subst hbefore
  subst hr
  have hb : ((exec (abortLoop Shell.Umount ⟨s.ExecWithSudo, s.ExecInLocal, s.ExecSudoAlias⟩
      (fun out => !s.suppressed out) exec pre m).state (Shell.Umount d)
      ⟨s.ExecWithSudo, s.ExecInLocal, s.ExecSudoAlias⟩).1.2.isSome &&
      (fun out => !s.suppressed out)
        (exec (abortLoop Shell.Umount ⟨s.ExecWithSudo, s.ExecInLocal, s.ExecSudoAlias⟩
          (fun out => !s.suppressed out) exec pre m).state (Shell.Umount d)
          ⟨s.ExecWithSudo, s.ExecInLocal, s.ExecSudoAlias⟩).1.1) = true := by
    rw [hfail]
    simp [hsup]
  rw [hE, hD, abortLoop_abort_at _ _ _ _ _ _ _ _ hd hpre hb]
  refine ⟨hfail, ?_, rfl, (abortLoop_complete _ _ _ _ _ _ hpre).2⟩
  simp only [hfail]

theorem UmountFilesystem_Execute_propagates_witness :
    (umountStrict.Execute secondNotMounted 0).err = some 32 ∧
    (umountStrict.Execute secondNotMounted 0).log =
      [⟨Shell.Umount "/mnt/a", ⟨true, false, "sudo"⟩, "", none⟩] ++
        [⟨Shell.Umount "/mnt/b", ⟨true, false, "sudo"⟩, "umount: /mnt/b: not mounted.\n",
          some 32⟩] ∧
    (umountStrict.Execute secondNotMounted 0).state = 2 ∧
    [Shell.Umount "/mnt/a"] = [Shell.Umount "/mnt/a"] :=
  UmountFilesystem_Execute_propagates umountStrict secondNotMounted 0 rfl rfl
    ["/mnt/a", ""] ["/mnt/c"] "/mnt/b" 32
    ⟨none, [⟨Shell.Umount "/mnt/a", ⟨true, false, "sudo"⟩, "", none⟩], 1⟩
    (("umount: /mnt/b: not mounted.\n", some 32), 2)
    rfl (by decide) rfl (by decide) rfl rfl

/-- C4: `CreateDirectory.Execute` and `RemoveFile.Execute` skip zero-length
entries without dispatching a command. For every list, module and module
state the whole run (returned error, commands dispatched in order with their
outputs, module state left) is the run on the list with its empty strings
removed; for a list that is empty or holds only empty strings nothing is
dispatched, no error is returned and the module state is untouched. -/
theorem Execute_skips_empty_entries {ε σ : Type} (exec : Executor ε σ) (m : σ) :
    (∀ s : CreateDirectory,
      s.Execute exec m =
        ({ s with Paths := s.Paths.filter (fun p => decide (p ≠ "")) } :
          CreateDirectory).Execute exec m) ∧
    (∀ s : RemoveFile,
      s.Execute exec m =
        ({ s with Files := s.Files.filter (fun f => decide (f ≠ "")) } :
          RemoveFile).Execute exec m) ∧
    (∀ s : CreateDirectory, (∀ p ∈ s.Paths, p = "") → s.Execute exec m = ⟨none, [], m⟩) ∧
    (∀ s : RemoveFile, (∀ f ∈ s.Files, f = "") → s.Execute exec m = ⟨none, [], m⟩) := by
  have hC : ∀ s : CreateDirectory, s.Execute exec m =
      ({ s with Paths := s.Paths.filter (fun p => decide (p ≠ "")) } :
        CreateDirectory).Execute exec m := by
    intro s
    have hE := CreateDirectory_Execute_eq s exec s.Paths m
    change s.Execute exec m = _ at hE
    rw [hE, CreateDirectory_Execute_eq, ← abortLoop_filter]
  have hR : ∀ s : RemoveFile, s.Execute exec m =
      ({ s with Files := s.Files.filter (fun f => decide (f ≠ "")) } :
        RemoveFile).Execute exec m := by
    intro s
    have hE := RemoveFile_Execute_eq s exec s.Files m
    change s.Execute exec m = _ at hE
    rw [hE, RemoveFile_Execute_eq, ← abortLoop_filter]
  refine ⟨hC, hR, ?_, ?_⟩
  · intro s hall
    have hnil : s.Paths.filter (fun p => decide (p ≠ "")) = [] := by
      rw [List.filter_eq_nil_iff]
      intro p hp
      simp [hall p hp]
    rw [hC s, hnil]
    rfl
  · intro s hall
    have hnil : s.Files.filter (fun f => decide (f ≠ "")) = [] := by
      rw [List.filter_eq_nil_iff]
      intro f hf
      simp [hall f hf]
    rw [hR s, hnil]
    rfl

theorem Execute_skips_empty_entries_witness :
    (CreateDirectory.mk ["", ""] false true "").Execute secondNotMounted 0 = ⟨none, [], 0⟩ ∧
    (RemoveFile.mk [] false true "").Execute secondNotMounted 0 = ⟨none, [], 0⟩ :=
  ⟨(Execute_skips_empty_entries secondNotMounted 0).2.2.1
      (CreateDirectory.mk ["", ""] false true "") (by decide),
    (Execute_skips_empty_entries secondNotMounted 0).2.2.2
      (RemoveFile.mk [] false true "") (by decide)⟩

/-- C6: `CreateDirectory.Execute` and `RemoveFile.Execute` abort the whole step
on the first real failure. For every list `pre ++ x :: post` with `x`
non-empty (`x` is the entry at index `pre.length`), module and module state:
when no command dispatched for the entries `pre` was a real failure (mkdir:
none failed; rm: each failure had an output that, its trailing newline
stripped, ends with the device-busy marker) and the command of `x` is a real
failure with error `e`, `Execute` returns exactly `e`, the commands dispatched
are those of the non-empty entries of `pre`, in order, followed by the command
of `x`, and nothing is dispatched for an entry of `post`. When no dispatched
command is a real failure, `Execute` returns no error. -/
theorem Execute_aborts_on_first_failure {ε σ : Type} (exec : Executor ε σ) (m : σ) :
    (∀ (s : CreateDirectory) (pre post : List String) (x : String) (e : ε)
        (before : Run ε σ) (r : (String × Option ε) × σ),
      s.Paths = pre ++ x :: post → x ≠ "" →
      before = ({ s with Paths := pre } : CreateDirectory).Execute exec m →
      (∀ inv ∈ before.log, inv.err = none) →
      r = exec before.state (mkdirCommand x) ⟨s.ExecWithSudo, s.ExecInLocal, s.ExecSudoAlias⟩ →
      r.1.2 = some e →
        (s.Execute exec m).err = some e ∧
        (s.Execute exec m).log = before.log ++
          [⟨mkdirCommand x, ⟨s.ExecWithSudo, s.ExecInLocal, s.ExecSudoAlias⟩, r.1.1, some e⟩] ∧
        (s.Execute exec m).state = r.2 ∧
        before.log.map (fun inv => inv.cmd) =
          (pre.filter (fun p => decide (p ≠ ""))).map mkdirCommand) ∧
    (∀ (s : RemoveFile) (pre post : List String) (x : String) (e : ε)
        (before : Run ε σ) (r : (String × Option ε) × σ),
      s.Files = pre ++ x :: post → x ≠ "" →
      before = ({ s with Files := pre } : RemoveFile).Execute exec m →
      (∀ inv ∈ before.log, inv.err ≠ none → endsDeviceBusy inv.out = true) →
      r = exec before.state (rmCommand x) ⟨s.ExecWithSudo, s.ExecInLocal, s.ExecSudoAlias⟩ →
      r.1.2 = some e → endsDeviceBusy r.1.1 = false →
        (s.Execute exec m).err = some e ∧
        (s.Execute exec m).log = before.log ++
          [⟨rmCommand x, ⟨s.ExecWithSudo, s.ExecInLocal, s.ExecSudoAlias⟩, r.1.1, some e⟩] ∧
        (s.Execute exec m).state = r.2 ∧
        before.log.map (fun inv => inv.cmd) =
          (pre.filter (fun f => decide (f ≠ ""))).map rmCommand) ∧
    (∀ s : CreateDirectory,
      (∀ inv ∈ (s.Execute exec m).log, inv.err = none) → (s.Execute exec m).err = none) ∧
    (∀ s : RemoveFile,
      (∀ inv ∈ (s.Execute exec m).log, inv.err ≠ none → endsDeviceBusy inv.out = true) →
        (s.Execute exec m).err = none) := by
  refine ⟨?_, ?_, ?_, ?_⟩
  · intro s pre post x e before r hP hx hbefore hok hr hfail
    have hE := CreateDirectory_Execute_eq s exec s.Paths m
    change s.Execute exec m = _ at hE
    rw [CreateDirectory_Execute_eq] at hbefore
    subst hbefore
    subst hr
    have hpre : ∀ inv ∈ (abortLoop mkdirCommand
        ⟨s.ExecWithSudo, s.ExecInLocal, s.ExecSudoAlias⟩ (fun _ => true) exec pre m).log,
        inv.aborts (fun _ => true) = false := by
      intro inv hinv
      simp [Invocation.aborts, hok inv hinv]
    have hb : ((exec (abortLoop mkdirCommand ⟨s.ExecWithSudo, s.ExecInLocal, s.ExecSudoAlias⟩
        (fun _ => true) exec pre m).state (mkdirCommand x)
        ⟨s.ExecWithSudo, s.ExecInLocal, s.ExecSudoAlias⟩).1.2.isSome &&
        (fun _ => true)
          (exec (abortLoop mkdirCommand ⟨s.ExecWithSudo, s.ExecInLocal, s.ExecSudoAlias⟩
            (fun _ => true) exec pre m).state (mkdirCommand x)
            ⟨s.ExecWithSudo, s.ExecInLocal, s.ExecSudoAlias⟩).1.1) = true := by
      rw [hfail]
      rfl
    rw [hE, hP, abortLoop_abort_at _ _ _ _ _ _ _ _ hx hpre hb]
    refine ⟨hfail, ?_, rfl, (abortLoop_complete _ _ _ _ _ _ hpre).2⟩
    simp only [hfail]
  · intro s pre post x e before r hP hx hbefore hok hr hfail hreal
    have hE := RemoveFile_Execute_eq s exec s.Files m
    change s.Execute exec m = _ at hE
    rw [RemoveFile_Execute_eq] at hbefore
    subst hbefore
    subst hr
    have hpre : ∀ inv ∈ (abortLoop rmCommand
        ⟨s.ExecWithSudo, s.ExecInLocal, s.ExecSudoAlias⟩
        (fun out => !endsDeviceBusy out) exec pre m).log,
        inv.aborts (fun out => !endsDeviceBusy out) = false := by
      intro inv hinv
      have := hok inv hinv
      unfold Invocation.aborts
      cases he : inv.err with
      | none => simp
      | some e2 =>
        have h2 := this (by simp [he])
        simp [h2]
    have hb : ((exec (abortLoop rmCommand ⟨s.ExecWithSudo, s.ExecInLocal, s.ExecSudoAlias⟩
        (fun out => !endsDeviceBusy out) exec pre m).state (rmCommand x)
        ⟨s.ExecWithSudo, s.ExecInLocal, s.ExecSudoAlias⟩).1.2.isSome &&
        (fun out => !endsDeviceBusy out)
          (exec (abortLoop rmCommand ⟨s.ExecWithSudo, s.ExecInLocal, s.ExecSudoAlias⟩
            (fun out => !endsDeviceBusy out) exec pre m).state (rmCommand x)
            ⟨s.ExecWithSudo, s.ExecInLocal, s.ExecSudoAlias⟩).1.1) = true := by
      rw [hfail]
      simp only [hreal]
      rfl
    rw [hE, hP, abortLoop_abort_at _ _ _ _ _ _ _ _ hx hpre hb]
    refine ⟨hfail, ?_, rfl, (abortLoop_complete _ _ _ _ _ _ hpre).2⟩
    simp only [hfail]
  · intro s hok
    have hE := CreateDirectory_Execute_eq s exec s.Paths m
    change s.Execute exec m = _ at hE
    rw [hE] at hok ⊢
    refine (abortLoop_complete _ _ _ _ _ _ ?_).1
    intro inv hinv
    simp [Invocation.aborts, hok inv hinv]
  · intro s hok
    have hE := RemoveFile_Execute_eq s exec s.Files m
    change s.Execute exec m = _ at hE
    rw [hE] at hok ⊢
    refine (abortLoop_complete _ _ _ _ _ _ ?_).1
    intro inv hinv
    have := hok inv hinv
    unfold Invocation.aborts
    cases he : inv.err with
    | none => simp
    | some e2 =>
      have h2 := this (by simp [he])
      simp [h2]

theorem Execute_aborts_on_first_failure_witness :
    ((createFour.Execute secondDenied 0).err = some 1 ∧
      (createFour.Execute secondDenied 0).log =
        [⟨mkdirCommand "/data/a", ⟨false, true, ""⟩, "", none⟩] ++
          [⟨mkdirCommand "/data/b", ⟨false, true, ""⟩,
            "mkdir: cannot create directory /data/b: Permission denied\n", some 1⟩]) ∧
    ((removeThree.Execute busyThenDenied 0).err = some 1 ∧
      (removeThree.Execute busyThenDenied 0).log =
        [⟨rmCommand "/mnt/a", ⟨false, true, ""⟩,
          "rm: cannot remove /mnt/a: Device or resource busy\n", some 1⟩] ++
          [⟨rmCommand "/data/b", ⟨false, true, ""⟩,
            "rm: cannot remove /data/b: Permission denied\n", some 1⟩]) ∧
    (createFour.Execute (scripted []) 0).err = none ∧
    (removeThree.Execute (scripted []) 0).err = none :=
  ⟨(fun h => ⟨h.1, h.2.1⟩) ((Execute_aborts_on_first_failure secondDenied 0).1 createFour
      ["/data/a", ""] ["/data/c"] "/data/b" 1
      ⟨none, [⟨mkdirCommand "/data/a", ⟨false, true, ""⟩, "", none⟩], 1⟩
      (("mkdir: cannot create directory /data/b: Permission denied\n", some 1), 2)
      rfl (by decide) rfl (by decide) rfl rfl),
   (fun h => ⟨h.1, h.2.1⟩) ((Execute_aborts_on_first_failure busyThenDenied 0).2.1 removeThree
      ["/mnt/a"] ["/data/c"] "/data/b" 1
      ⟨none, [⟨rmCommand "/mnt/a", ⟨false, true, ""⟩,
        "rm: cannot remove /mnt/a: Device or resource busy\n", some 1⟩], 1⟩
      (("rm: cannot remove /data/b: Permission denied\n", some 1), 2)
      rfl (by decide) rfl (by decide) rfl rfl (by decide)),
   (Execute_aborts_on_first_failure (scripted []) 0).2.2.1 createFour (by decide),
   (Execute_aborts_on_first_failure (scripted []) 0).2.2.2 removeThree (by decide)⟩

/-- C7: the operation-specific default flags are always applied. Every command
`CreateDirectory.Execute` dispatches is the mkdir of one non-empty entry of
`Paths` with the single added option `--parents`; every command
`RemoveFile.Execute` dispatches is the rm of one non-empty entry of `Files`
with the added options `--force` and then `--recursive`; and for
`Paths = ["", "/data/x"]` on a module on which commands succeed exactly one
command is dispatched, the mkdir of `/data/x` with `--parents`, and no error
is returned. -/
theorem Execute_default_flags {ε σ : Type} (exec : Executor ε σ) (m : σ) :
    (∀ (s : CreateDirectory), ∀ inv ∈ (s.Execute exec m).log,
      ∃ path, path ∈ s.Paths ∧ path ≠ "" ∧
        inv.cmd = ⟨Program.mkdir, [path], ["--parents"]⟩) ∧
    (∀ (s : RemoveFile), ∀ inv ∈ (s.Execute exec m).log,
      ∃ file, file ∈ s.Files ∧ file ≠ "" ∧
        inv.cmd = ⟨Program.rm, [file], ["--force", "--recursive"]⟩) ∧
    (∀ (s : CreateDirectory), s.Paths = ["", "/data/x"] →
      (∀ m2 cmd option, (exec m2 cmd option).1.2 = none) →
        (s.Execute exec m).err = none ∧
        (s.Execute exec m).log.map (fun inv => inv.cmd) =
          [⟨Program.mkdir, ["/data/x"], ["--parents"]⟩]) := by
  refine ⟨?_, ?_, ?_⟩
  · intro s inv hinv
    have hE := CreateDirectory_Execute_eq s exec s.Paths m
    change s.Execute exec m = _ at hE
    rw [hE] at hinv
    obtain ⟨x, hx, hne, hc, _⟩ := abortLoop_log_mem _ _ _ _ _ _ _ hinv
    exact ⟨x, hx, hne, hc⟩
  · intro s inv hinv
    have hE := RemoveFile_Execute_eq s exec s.Files m
    change s.Execute exec m = _ at hE
    rw [hE] at hinv
    obtain ⟨x, hx, hne, hc, _⟩ := abortLoop_log_mem _ _ _ _ _ _ _ hinv
    exact ⟨x, hx, hne, hc⟩
  · intro s hP hok
    have hE := CreateDirectory_Execute_eq s exec s.Paths m
    change s.Execute exec m = _ at hE
    rw [hE, hP]
    have hl : ¬ ("/data/x" : String).length = 0 := by decide
    have h0 : ("" : String).length = 0 := rfl
    have hb : ¬ ((exec m (mkdirCommand "/data/x")
        ⟨s.ExecWithSudo, s.ExecInLocal, s.ExecSudoAlias⟩).1.2.isSome &&
        (fun _ => true) (exec m (mkdirCommand "/data/x")
          ⟨s.ExecWithSudo, s.ExecInLocal, s.ExecSudoAlias⟩).1.1) = true := by
      rw [hok]
      simp
    rw [abortLoop_cons_skip _ _ _ _ _ _ _ h0, abortLoop_cons_continue _ _ _ _ _ _ _ hl hb]
    simp only [abortLoop, List.map_cons, List.map_nil]
    exact ⟨trivial, rfl⟩

theorem Execute_default_flags_witness :
    ((CreateDirectory.mk ["", "/data/x"] true false "sudo").Execute succeeding ()).err = none ∧
    ((CreateDirectory.mk ["", "/data/x"] true false "sudo").Execute succeeding ()).log.map
      (fun inv => inv.cmd) = [⟨Program.mkdir, ["/data/x"], ["--parents"]⟩] :=
  (Execute_default_flags succeeding ()).2.2 (CreateDirectory.mk ["", "/data/x"] true false "sudo")
    rfl (fun _ _ _ => rfl)

/-! ### Steps with captured output -/

theorem Fuser_Execute_log {ε σ : Type} (s : Fuser) (exec : Executor ε σ) (m : σ) (mem : Mem) :
    (s.Execute exec m mem).log.map (fun inv => inv.cmd) = [Shell.Fuser s.Names] := by
  unfold Fuser.Execute
  simp only
  split
  · rfl
  · split <;> rfl

theorem ShowDiskFree_Execute_log {ε σ : Type} (s : ShowDiskFree) (exec : Executor ε σ) (m : σ)
    (mem : Mem) :
    (s.Execute exec m mem).log.map (fun inv => inv.cmd) =
      [if s.Format.length > 0 then (Shell.DiskFree s.Files).AddOption ("--output=" ++ s.Format)
        else Shell.DiskFree s.Files] := by
  unfold ShowDiskFree.Execute
  simp only
  split
  · rfl
  · split <;> rfl

theorem ListBlockDevice_Execute_log {ε σ : Type} (s : ListBlockDevice) (exec : Executor ε σ)
    (m : σ) (mem : Mem) :
    (s.Execute exec m mem).log.map (fun inv => inv.cmd) =
      [if s.NoHeadings then
        (if s.Format.length > 0 then
          (Shell.LsBlk s.Device).AddOption ("--output=" ++ s.Format)
          else Shell.LsBlk s.Device).AddOption "--noheadings"
        else
          (if s.Format.length > 0 then
            (Shell.LsBlk s.Device).AddOption ("--output=" ++ s.Format)
            else Shell.LsBlk s.Device)] := by
  unfold ListBlockDevice.Execute
  simp only
  split
  · rfl
  · split <;> rfl

theorem ShellCommand_Execute_log {ε σ : Type} (s : ShellCommand) (exec : Executor ε σ) (m : σ)
    (mem : Mem) :
    (s.Execute exec m mem).log.map (fun inv => inv.cmd) = [Shell.Command s.Command] := by
  unfold ShellCommand.Execute
  simp only
  split
  · rfl
  · split <;> rfl

theorem Mem.store_same (mem : Mem) (p : Nat) (v : String) : mem.store p v p = v := by
  simp [Mem.store]

theorem Mem.store_other (mem : Mem) (p q : Nat) (v : String) (h : q ≠ p) :
    mem.store p v q = mem q := by
  simp [Mem.store, h]

theorem ShowDiskFree_command {s : ShowDiskFree} :
    (if s.Format.length > 0 then (Shell.DiskFree s.Files).AddOption ("--output=" ++ s.Format)
      else Shell.DiskFree s.Files) =
      ⟨Program.df, s.Files, if s.Format = "" then [] else ["--output=" ++ s.Format]⟩ := by
  by_cases hf : s.Format = ""
  · have hl : ¬ s.Format.length > 0 := by
      rw [(length_eq_zero_iff s.Format).mpr hf]
      exact Nat.lt_irrefl 0
    rw [if_neg hl, if_pos hf]
    rfl
  · have hl : s.Format.length > 0 :=
      Nat.pos_of_ne_zero (fun h => hf ((length_eq_zero_iff s.Format).mp h))
    rw [if_pos hl, if_neg hf]
    rfl

theorem ListBlockDevice_command {s : ListBlockDevice} :
    (if s.NoHeadings then
      (if s.Format.length > 0 then
        (Shell.LsBlk s.Device).AddOption ("--output=" ++ s.Format)
        else Shell.LsBlk s.Device).AddOption "--noheadings"
      else
        (if s.Format.length > 0 then
          (Shell.LsBlk s.Device).AddOption ("--output=" ++ s.Format)
          else Shell.LsBlk s.Device)) =
      ⟨Program.lsblk, s.Device,
        (if s.Format = "" then [] else ["--output=" ++ s.Format]) ++
          (if s.NoHeadings = true then ["--noheadings"] else [])⟩ := by
  by_cases hf : s.Format = ""
  · have hl : ¬ s.Format.length > 0 := by
      rw [(length_eq_zero_iff s.Format).mpr hf]
      exact Nat.lt_irrefl 0
    rw [if_neg hl, if_pos hf]
    cases hn : s.NoHeadings <;> simp [Shell.LsBlk, Command.AddOption]
  · have hl : s.Format.length > 0 :=
      Nat.pos_of_ne_zero (fun h => hf ((length_eq_zero_iff s.Format).mp h))
    rw [if_pos hl, if_neg hf]
    cases hn : s.NoHeadings <;> simp [Shell.LsBlk, Command.AddOption]

/-- The shape shared by the four steps with captured output: dispatch `cmd`,
return its error, or store the trimmed output through `Out`. -/
theorem captured_run {ε σ : Type} (exec : Executor ε σ) (m : σ) (mem : Mem) (cmd : Command)
    (option : ExecOption) (p : Nat) (run : OutRun ε σ)
    (hrun : run =
      match (exec m cmd option).1.2 with
      | some err => ⟨.error err, [⟨cmd, option, (exec m cmd option).1.1, some err⟩],
          (exec m cmd option).2, mem⟩
      | none => ⟨.nil, [⟨cmd, option, (exec m cmd option).1.1, none⟩], (exec m cmd option).2,
          mem.store p (strings.TrimSuffix (exec m cmd option).1.1 "\n")⟩) :
    run.log = [⟨cmd, option, (exec m cmd option).1.1, (exec m cmd option).1.2⟩] ∧
    run.state = (exec m cmd option).2 ∧
    (∀ e, (exec m cmd option).1.2 = some e → run.ret = Ret.error e ∧ run.mem = mem) ∧
    ((exec m cmd option).1.2 = none →
      run.ret = Ret.nil ∧
      run.mem p = strings.TrimSuffix (exec m cmd option).1.1 "\n" ∧
      ∀ q, q ≠ p → run.mem q = mem q) := by
  subst hrun
  cases hres : (exec m cmd option).1.2 with
  | none =>
    refine ⟨rfl, rfl, fun e he => Option.noConfusion he, fun _ => ?_⟩
    exact ⟨rfl, Mem.store_same _ _ _, fun q hq => Mem.store_other _ _ _ _ hq⟩
  | some e0 =>
    refine ⟨rfl, rfl, fun e he => ?_, fun hn => Option.noConfusion hn⟩
    cases he
    exact ⟨rfl, rfl⟩

/-- C5: for each step with captured output (`Fuser`, `ShowDiskFree`,
`ListBlockDevice`, `ShellCommand`) holding a non-nil output slot `Out`, for
every module, module state and prior slot contents: the step dispatches
exactly one command, the one it builds from its fields, and leaves the module
in the state that command left; when that command fails with error `e`,
`Execute` returns `e` and every slot holds its prior content; when it
succeeds, `Execute` returns no error, the slot `Out` holds the captured
output without its trailing newline, and every other slot holds its prior
content. -/
theorem Execute_captured_output {ε σ : Type} (exec : Executor ε σ) (m : σ) (mem : Mem) :
    (∀ (s : Fuser) (p : Nat) (cmd : Command) (r : (String × Option ε) × σ),
      s.Out = some p →
      cmd = ⟨Program.fuser, s.Names, []⟩ →
      r = exec m cmd ⟨s.ExecWithSudo, s.ExecInLocal, s.ExecSudoAlias⟩ →
        (s.Execute exec m mem).log =
          [⟨cmd, ⟨s.ExecWithSudo, s.ExecInLocal, s.ExecSudoAlias⟩, r.1.1, r.1.2⟩] ∧
        (s.Execute exec m mem).state = r.2 ∧
        (∀ e, r.1.2 = some e →
          (s.Execute exec m mem).ret = Ret.error e ∧ (s.Execute exec m mem).mem = mem) ∧
        (r.1.2 = none →
          (s.Execute exec m mem).ret = Ret.nil ∧
          (s.Execute exec m mem).mem p = strings.TrimSuffix r.1.1 "\n" ∧
          ∀ q, q ≠ p → (s.Execute exec m mem).mem q = mem q)) ∧
    (∀ (s : ShowDiskFree) (p : Nat) (cmd : Command) (r : (String × Option ε) × σ),
      s.Out = some p →
      cmd = ⟨Program.df, s.Files, if s.Format = "" then [] else ["--output=" ++ s.Format]⟩ →
      r = exec m cmd ⟨s.ExecWithSudo, s.ExecInLocal, s.ExecSudoAlias⟩ →
        (s.Execute exec m mem).log =
          [⟨cmd, ⟨s.ExecWithSudo, s.ExecInLocal, s.ExecSudoAlias⟩, r.1.1, r.1.2⟩] ∧
        (s.Execute exec m mem).state = r.2 ∧
        (∀ e, r.1.2 = some e →
          (s.Execute exec m mem).ret = Ret.error e ∧ (s.Execute exec m mem).mem = mem) ∧
        (r.1.2 = none →
          (s.Execute exec m mem).ret = Ret.nil ∧
          (s.Execute exec m mem).mem p = strings.TrimSuffix r.1.1 "\n" ∧
          ∀ q, q ≠ p → (s.Execute exec m mem).mem q = mem q)) ∧
    (∀ (s : ListBlockDevice) (p : Nat) (cmd : Command) (r : (String × Option ε) × σ),
      s.Out = some p →
      cmd = ⟨Program.lsblk, s.Device,
        (if s.Format = "" then [] else ["--output=" ++ s.Format]) ++
          (if s.NoHeadings = true then ["--noheadings"] else [])⟩ →
      r = exec m cmd ⟨s.ExecWithSudo, s.ExecInLocal, s.ExecSudoAlias⟩ →
        (s.Execute exec m mem).log =
          [⟨cmd, ⟨s.ExecWithSudo, s.ExecInLocal, s.ExecSudoAlias⟩, r.1.1, r.1.2⟩] ∧
        (s.Execute exec m mem).state = r.2 ∧
        (∀ e, r.1.2 = some e →
          (s.Execute exec m mem).ret = Ret.error e ∧ (s.Execute exec m mem).mem = mem) ∧
        (r.1.2 = none →
          (s.Execute exec m mem).ret = Ret.nil ∧
          (s.Execute exec m mem).mem p = strings.TrimSuffix r.1.1 "\n" ∧
          ∀ q, q ≠ p → (s.Execute exec m mem).mem q = mem q)) ∧
    (∀ (s : ShellCommand) (p : Nat) (cmd : Command) (r : (String × Option ε) × σ),
      s.Out = some p →
      cmd = ⟨Program.command, [s.Command], []⟩ →
      r = exec m cmd ⟨s.ExecWithSudo, s.ExecInLocal, s.ExecSudoAlias⟩ →
        (s.Execute exec m mem).log =
          [⟨cmd, ⟨s.ExecWithSudo, s.ExecInLocal, s.ExecSudoAlias⟩, r.1.1, r.1.2⟩] ∧
        (s.Execute exec m mem).state = r.2 ∧
        (∀ e, r.1.2 = some e →
          (s.Execute exec m mem).ret = Ret.error e ∧ (s.Execute exec m mem).mem = mem) ∧
        (r.1.2 = none →
          (s.Execute exec m mem).ret = Ret.nil ∧
          (s.Execute exec m mem).mem p = strings.TrimSuffix r.1.1 "\n" ∧
          ∀ q, q ≠ p → (s.Execute exec m mem).mem q = mem q)) := by
  refine ⟨?_, ?_, ?_, ?_⟩
  · intro s p cmd r hOut hcmd hr
    subst hcmd
    subst hr
    refine captured_run exec m mem _ _ p _ ?_
    unfold Fuser.Execute
    simp only [hOut]
    rfl
  · intro s p cmd r hOut hcmd hr
    subst hcmd
    subst hr
    refine captured_run exec m mem _ _ p _ ?_
    unfold ShowDiskFree.Execute
    simp only [hOut, ShowDiskFree_command]
  · intro s p cmd r hOut hcmd hr
    subst hcmd
    subst hr
    refine captured_run exec m mem _ _ p _ ?_
    unfold ListBlockDevice.Execute
    simp only [hOut, ListBlockDevice_command]
  · intro s p cmd r hOut hcmd hr
    subst hcmd
    subst hr
    refine captured_run exec m mem _ _ p _ ?_
    unfold ShellCommand.Execute
    simp only [hOut]
    rfl

theorem Execute_captured_output_witness :
    ((fuserSeven.Execute (scripted [("1234 5678\n", none)]) 0 staleMem).log =
        [⟨⟨Program.fuser, ["/mnt/a"], []⟩, ⟨true, false, "sudo"⟩, "1234 5678\n", none⟩] ∧
      (fuserSeven.Execute (scripted [("1234 5678\n", none)]) 0 staleMem).ret = Ret.nil ∧
      (fuserSeven.Execute (scripted [("1234 5678\n", none)]) 0 staleMem).mem 7
        = "1234 5678") ∧
    ((fuserSeven.Execute (scripted [("fuser: denied\n", some 1)]) 0 staleMem).ret
        = Ret.error 1 ∧
      (fuserSeven.Execute (scripted [("fuser: denied\n", some 1)]) 0 staleMem).mem
        = staleMem) ∧
    ((diskFreeSeven.Execute (scripted [("Avail\n1024\n", none)]) 0 staleMem).log =
        [⟨⟨Program.df, ["/data"], ["--output=avail"]⟩, ⟨false, true, ""⟩, "Avail\n1024\n",
          none⟩] ∧
      (diskFreeSeven.Execute (scripted [("Avail\n1024\n", none)]) 0 staleMem).ret = Ret.nil ∧
      (diskFreeSeven.Execute (scripted [("Avail\n1024\n", none)]) 0 staleMem).mem 7
        = "Avail\n1024") ∧
    ((listBlockSeven.Execute (scripted [("lsblk: not a block device\n", some 32)]) 0
        staleMem).log =
        [⟨⟨Program.lsblk, ["/dev/sda"], ["--output=NAME", "--noheadings"]⟩, ⟨false, true, ""⟩,
          "lsblk: not a block device\n", some 32⟩] ∧
      (listBlockSeven.Execute (scripted [("lsblk: not a block device\n", some 32)]) 0
        staleMem).ret = Ret.error 32 ∧
      (listBlockSeven.Execute (scripted [("lsblk: not a block device\n", some 32)]) 0
        staleMem).mem = staleMem) ∧
    ((shellSeven.Execute (scripted [("5.10.0\n", none)]) 0 staleMem).log =
        [⟨⟨Program.command, ["uname -r"], []⟩, ⟨false, true, ""⟩, "5.10.0\n", none⟩] ∧
      (shellSeven.Execute (scripted [("5.10.0\n", none)]) 0 staleMem).ret = Ret.nil ∧
      (shellSeven.Execute (scripted [("5.10.0\n", none)]) 0 staleMem).mem 7 = "5.10.0") :=
  ⟨(fun h => ⟨h.1, (h.2.2.2 rfl).1, (h.2.2.2 rfl).2.1⟩)
      ((Execute_captured_output (scripted [("1234 5678\n", none)]) 0 staleMem).1 fuserSeven 7
        ⟨Program.fuser, ["/mnt/a"], []⟩ (("1234 5678\n", none), 1) rfl rfl rfl),
    ((Execute_captured_output (scripted [("fuser: denied\n", some 1)]) 0 staleMem).1 fuserSeven 7
      ⟨Program.fuser, ["/mnt/a"], []⟩ (("fuser: denied\n", some 1), 1) rfl rfl rfl).2.2.1 1 rfl,
    (fun h => ⟨h.1, (h.2.2.2 rfl).1, (h.2.2.2 rfl).2.1⟩)
      ((Execute_captured_output (scripted [("Avail\n1024\n", none)]) 0 staleMem).2.1
        diskFreeSeven 7 ⟨Program.df, ["/data"], ["--output=avail"]⟩
        (("Avail\n1024\n", none), 1) rfl rfl rfl),
    (fun h => ⟨h.1, (h.2.2.1 32 rfl).1, (h.2.2.1 32 rfl).2⟩)
      ((Execute_captured_output (scripted [("lsblk: not a block device\n", some 32)]) 0
        staleMem).2.2.1 listBlockSeven 7
        ⟨Program.lsblk, ["/dev/sda"], ["--output=NAME", "--noheadings"]⟩
        (("lsblk: not a block device\n", some 32), 1) rfl rfl rfl),
    (fun h => ⟨h.1, (h.2.2.2 rfl).1, (h.2.2.2 rfl).2.1⟩)
      ((Execute_captured_output (scripted [("5.10.0\n", none)]) 0 staleMem).2.2.2 shellSeven 7
        ⟨Program.command, ["uname -r"], []⟩ (("5.10.0\n", none), 1) rfl rfl rfl)⟩

/-- C8: the format-sensitive steps. For every `ShowDiskFree` and
`ListBlockDevice` step, module, module state and slots, exactly one command
is dispatched. For `ShowDiskFree` it is df of `Files` whose added options are
the single option `--output=<Format>` when `Format` is non-empty and none
when `Format` is empty. For `ListBlockDevice` it is lsblk of `Device` whose
added options are that same format option (present exactly when `Format` is
non-empty) followed by `--noheadings` (present exactly when `NoHeadings` is
true), and nothing else. -/
theorem Execute_output_format {ε σ : Type} (exec : Executor ε σ) (m : σ) (mem : Mem) :
    (∀ s : ShowDiskFree,
      (s.Execute exec m mem).log.map (fun inv => inv.cmd) =
        [⟨Program.df, s.Files, if s.Format = "" then [] else ["--output=" ++ s.Format]⟩]) ∧
    (∀ s : ListBlockDevice,
      (s.Execute exec m mem).log.map (fun inv => inv.cmd) =
        [⟨Program.lsblk, s.Device,
          (if s.Format = "" then [] else ["--output=" ++ s.Format]) ++
            (if s.NoHeadings = true then ["--noheadings"] else [])⟩]) := by
  constructor
  · intro s
    rw [ShowDiskFree_Execute_log]
    by_cases hf : s.Format = ""
    · have hl : ¬ s.Format.length > 0 := by
        rw [(length_eq_zero_iff s.Format).mpr hf]
        exact Nat.lt_irrefl 0
      rw [if_neg hl, if_pos hf]
      rfl
    · have hl : s.Format.length > 0 :=
        Nat.pos_of_ne_zero (fun h => hf ((length_eq_zero_iff s.Format).mp h))
      rw [if_pos hl, if_neg hf]
      rfl
  · intro s
    rw [ListBlockDevice_Execute_log]
    by_cases hf : s.Format = ""
    · have hl : ¬ s.Format.length > 0 := by
        rw [(length_eq_zero_iff s.Format).mpr hf]
        exact Nat.lt_irrefl 0
      rw [if_neg hl, if_pos hf]
      cases hn : s.NoHeadings <;> simp [Shell.LsBlk, Command.AddOption]
    · have hl : s.Format.length > 0 :=
        Nat.pos_of_ne_zero (fun h => hf ((length_eq_zero_iff s.Format).mp h))
      rw [if_pos hl, if_neg hf]
      cases hn : s.NoHeadings <;> simp [Shell.LsBlk, Command.AddOption]

/-- C9: for every playground configuration, `NewRunPlaygroundTask` returns no
error and a task named "Run Playground" whose steps are exactly five, in this
order: the kernel-module load (whose `Execute` dispatches the single command
modprobe of `nbd` with `nbds_max=64`), `PullImage` of the configured
container image, `CreateContainer` of that image, `StartContainer`, and the
wait step (whose `Execute` dispatches nothing and returns no error); the
`StartContainer` step reads its container id from the slot the
`CreateContainer` step writes its output to. -/
theorem NewRunPlaygroundTask_steps {ε σ : Type} (KIND_CURVEBS KIND_CURVEFS : String)
    (execOptions : ExecOption) (containerId : Nat) (pc : playground.PlaygroundConfig) :
    (playground.NewRunPlaygroundTask (ε := ε) KIND_CURVEBS KIND_CURVEFS execOptions
      containerId pc).2 = none ∧
    (playground.NewRunPlaygroundTask (ε := ε) KIND_CURVEBS KIND_CURVEFS execOptions
      containerId pc).1.name = "Run Playground" ∧
    (∃ (options : ExecOption) (c : playground.CreateContainer),
      (playground.NewRunPlaygroundTask (ε := ε) KIND_CURVEBS KIND_CURVEFS execOptions
        containerId pc).1.steps =
          [playground.Step.step2CreateNBDDevice options,
            playground.Step.PullImage pc.GetContainIamge options,
            playground.Step.CreateContainer c,
            playground.Step.StartContainer c.Out options,
            playground.Step.step2WaitDone] ∧
      c.Image = pc.GetContainIamge ∧ c.Out = containerId ∧
      options = { execOptions with ExecInLocal := true }) ∧
    (∀ (options : ExecOption) (exec : Executor ε σ) (m : σ),
      (playground.step2CreateNBDDevice.Execute options exec m).log.map (fun inv => inv.cmd) =
        [⟨Program.modprobe, ["nbd", "nbds_max=64"], []⟩] ∧
      (playground.step2CreateNBDDevice.Execute options exec m).err =
        (exec m ⟨Program.modprobe, ["nbd", "nbds_max=64"], []⟩ options).1.2) ∧
    (∀ (exec : Executor ε σ) (m : σ),
      playground.step2WaitDone.Execute exec m = ⟨none, [], m⟩) :=
  ⟨rfl, rfl, ⟨_, _, rfl, rfl, rfl, rfl⟩, fun _ _ _ => ⟨rfl, rfl⟩, fun _ _ => rfl⟩

/-- C10, as the code behaves: when the CHECK_MOUNT_STATUS task succeeds but
the value under KEY_MOUNT_STATUS is absent or is not a `MountStatus`,
`runCheck` does not return an error: the unchecked type assertion panics. It
writes no status line: the tool state is the one the task left. -/
theorem runCheck_unchecked_cast {ε : Type}
    (ExecTasks : command.CurveAdm → Option ε × command.CurveAdm)
    (NewPromptError : ε → String → ε) (KEY_MOUNT_POINT KEY_MOUNT_STATUS : String)
    (curveadm : command.CurveAdm) (options : command.checkOptions)
    (r : Option ε × command.CurveAdm)
    (hr : r = ExecTasks (curveadm.Set KEY_MOUNT_POINT
      (.string (strings.TrimSuffix options.mountPoint "/"))))
    (hok : r.1 = none)
    (hv : ∀ status, r.2.Get KEY_MOUNT_STATUS ≠ some (.MountStatus status)) :
    command.runCheck ExecTasks NewPromptError KEY_MOUNT_POINT KEY_MOUNT_STATUS curveadm options
      = (Ret.panic, r.2) := by
  subst hr
  unfold command.runCheck
  simp only [hok]

theorem runCheck_unchecked_cast_witness :
    command.runCheck stringTasks promptError "KEY_MOUNT_POINT" "KEY_MOUNT_STATUS"
      freshCurveAdm ⟨"/mnt/test/"⟩
      = (Ret.panic, (stringTasks (freshCurveAdm.Set "KEY_MOUNT_POINT"
          (.string "/mnt/test"))).2) :=
  runCheck_unchecked_cast stringTasks promptError "KEY_MOUNT_POINT" "KEY_MOUNT_STATUS"
    freshCurveAdm ⟨"/mnt/test/"⟩ _ rfl rfl (by intro status h; cases h)

/-- C10 as stated fails: with an empty store and a check task that succeeds
without storing a status, `runCheck` panics; it returns no error, typed or
otherwise. -/
theorem runCheck_absent_status_panics :
    (command.runCheck silentTasks promptError "KEY_MOUNT_POINT" "KEY_MOUNT_STATUS"
      freshCurveAdm ⟨"/mnt/test"⟩).1 = Ret.panic ∧
    ¬ ∃ e, (command.runCheck silentTasks promptError "KEY_MOUNT_POINT" "KEY_MOUNT_STATUS"
      freshCurveAdm ⟨"/mnt/test"⟩).1 = Ret.error e := by
  have h : (command.runCheck silentTasks promptError "KEY_MOUNT_POINT" "KEY_MOUNT_STATUS"
      freshCurveAdm ⟨"/mnt/test"⟩).1 = Ret.panic := by decide
  refine ⟨h, ?_⟩
  rintro ⟨e, he⟩
  rw [h] at he
  cases he

end CurveAdm
